import Mathlib

/-!
Verification of the wire-protocol codecs of this repository: the SOCKS5
session codec (`socks5-impl`), the PROXY protocol v2 reader
(`proxy-protocol`) and the HTTP/1.1 codec (`http-impl`).

Bytes are modelled as `Nat` (values < 256 where it matters), byte streams as
`List Nat`, and every reader is a pure function from an input byte list to
`Except err (value × rest)` where `rest` is the unconsumed suffix of the
stream.  Fallible Rust functions returning `std::io::Result` or crate-level
`Result` are modelled with `Except` over explicit error enums mirroring the
error values the source constructs.
-/

namespace S5

/-- Errors produced by the SOCKS5 codec paths modelled here.  Each
constructor corresponds to one `std::io::Error` construction site in the
source. -/
inductive Err where
  /-- `read_exact` / `read_u8` / `read_u16` failing for lack of bytes. -/
  | eof : Err
  /-- `Version::try_from` failing (`InvalidData`, "invalid version"),
  `src/socks5-impl/src/protocol/mod.rs` line 41. -/
  | invalidVersion : Err
  /-- version parsed but `ver != Version::V5` (`Unsupported`,
  "Unsupported SOCKS version …"), `handshake/request.rs` lines 37-40. -/
  | unsupportedSocksVersion (v : Nat) : Err
  /-- `AddressType::try_from` failing (`InvalidInput`,
  "Unsupported address type code …"), `address.rs` line 27. -/
  | invalidAddressType (code : Nat) : Err
  /-- `String::from_utf8` failing (`InvalidData`,
  "Invalid address encoding: …"), `address.rs` lines 134-139 and 209-214. -/
  | invalidEncoding : Err
  /-- `Unsupported`, "No available handshake method provided by client",
  `server/connection/mod.rs` lines 51-52. -/
  | noAcceptableMethod : Err
  deriving DecidableEq, Repr

/-- `Read::read_exact` / `AsyncReadExt::read_exact` into a buffer of `n`
bytes: succeeds returning the first `n` bytes and the rest of the stream,
fails with `UnexpectedEof` when fewer are available. -/
def readExact (n : Nat) (l : List Nat) : Except Err (List Nat × List Nat) :=
  if n ≤ l.length then .ok (l.take n, l.drop n) else .error .eof

/-- Big-endian 16-bit read of the first two bytes of a buffer, as in
`u16::from_be_bytes([buf[0], buf[1]])`. -/
def readU16BE (l : List Nat) : Nat :=
  l.getD 0 0 * 256 + l.getD 1 0

/-- `BufMut::put_u16` (big-endian bytes of a `u16`). -/
def putU16 (n : Nat) : List Nat :=
  [n / 256 % 256, n % 256]

/-- Continuation byte of a UTF-8 multi-byte sequence (`0x80..=0xBF`). -/
def utf8Cont (b : Nat) : Bool := 128 ≤ b && b < 192

/-- Number of continuation bytes demanded by a non-ASCII leading byte, or
`none` for an invalid leading byte (`80..C1`, `F5..`). -/
def utf8SeqLen (b : Nat) : Option Nat :=
  if 194 ≤ b ∧ b ≤ 223 then some 1
  else if 224 ≤ b ∧ b ≤ 239 then some 2
  else if 240 ≤ b ∧ b ≤ 244 then some 3
  else none

/-- Constraint on the first continuation byte: the `E0`/`ED`/`F0`/`F4`
leading bytes restrict it further, excluding overlong forms, surrogates and
code points past `U+10FFFF`. -/
def utf8First (b c : Nat) : Bool :=
  if b = 224 then 160 ≤ c && c < 192
  else if b = 237 then 128 ≤ c && c < 160
  else if b = 240 then 144 ≤ c && c < 192
  else if b = 244 then 128 ≤ c && c < 144
  else utf8Cont c

/-- Check of the continuation bytes of one multi-byte sequence led by `b`. -/
def utf8Conts (b : Nat) : List Nat → Bool
  | [] => true
  | c :: rest => utf8First b c && rest.all utf8Cont

/-- Fuelled worker for `utf8Valid`; the fuel only forces structural
recursion and any fuel of at least the list length gives the same answer. -/
def utf8ValidFuel : Nat → List Nat → Bool
  | _, [] => true
  | 0, _ :: _ => false
  | fuel + 1, b :: l =>
    if b < 128 then utf8ValidFuel fuel l
    else
      match utf8SeqLen b with
      | none => false
      | some k =>
        if k ≤ l.length then utf8Conts b (l.take k) && utf8ValidFuel fuel (l.drop k)
        else false

/-- Validity of a byte list as UTF-8, mirroring `String::from_utf8`
(Rust std). -/
def utf8Valid (l : List Nat) : Bool := utf8ValidFuel l.length l

/-- `AddressType` (`src/socks5-impl/src/protocol/address.rs` lines 12-17). -/
inductive AddressType where
  | ipv4 : AddressType
  | domain : AddressType
  | ipv6 : AddressType
  deriving DecidableEq, Repr

/-- `AddressType::try_from` (`address.rs` lines 19-30). -/
def AddressType.tryFrom (code : Nat) : Except Err AddressType :=
  match code with
  | 0x01 => .ok .ipv4
  | 0x03 => .ok .domain
  | 0x04 => .ok .ipv6
  | _ => .error (.invalidAddressType code)

/-- `From<AddressType> for u8` (`address.rs` lines 32-40). -/
def AddressType.toByte : AddressType → Nat
  | .ipv4 => 0x01
  | .domain => 0x03
  | .ipv6 => 0x04

/-- `Address` (`address.rs` lines 51-57).  `SocketAddress(SocketAddr)` is
split into its V4 and V6 cases; an IP is its octet list (4 or 16 bytes) and
a domain is the byte list of the `Box<str>` (hence valid UTF-8 for every
value a Rust program can hold). -/
inductive Address where
  | socketV4 (ip : List Nat) (port : Nat) : Address
  | socketV6 (ip : List Nat) (port : Nat) : Address
  | domainAddress (name : List Nat) (port : Nat) : Address
  deriving DecidableEq, Repr

/-- The constraints the Rust types place on an `Address` value: octet lists
have the right length, all bytes and the `u16` port are in range, and a
domain (a `Box<str>`) is valid UTF-8.  Note the Rust type does NOT bound
the domain length by 255. -/
def Address.WF : Address → Prop
  | .socketV4 ip port => ip.length = 4 ∧ (∀ b ∈ ip, b < 256) ∧ port < 65536
  | .socketV6 ip port => ip.length = 16 ∧ (∀ b ∈ ip, b < 256) ∧ port < 65536
  | .domainAddress name port =>
      (∀ b ∈ name, b < 256) ∧ utf8Valid name = true ∧ port < 65536

instance : DecidablePred Address.WF := fun a => by
  cases a <;> simp [Address.WF] <;> infer_instance

/-- `Address::write_to_buf` (`address.rs` lines 157-177).  The domain
length byte is `addr.len() as u8`, i.e. the length reduced mod 256. -/
def Address.write_to_buf : Address → List Nat
  | .socketV4 ip port => AddressType.ipv4.toByte :: (ip ++ putU16 port)
  | .socketV6 ip port => AddressType.ipv6.toByte :: (ip ++ putU16 port)
  | .domainAddress name port =>
      AddressType.domain.toByte :: (name.length % 256) :: (name ++ putU16 port)

/-- `Address::retrieve_from_stream` (`address.rs` lines 112-155), the
synchronous reader: one ATYP byte, then 6 bytes for IPv4 (4 octets and a
big-endian port), a length byte plus that many domain bytes plus 2 port
bytes for Domain (checked as UTF-8 after all reads), or 18 bytes for IPv6. -/
def Address.retrieve_from_stream (l : List Nat) : Except Err (Address × List Nat) :=
  match l with
  | [] => .error .eof
  | atyp :: l =>
    match AddressType.tryFrom atyp with
    | .error e => .error e
    | .ok .ipv4 =>
      match readExact 6 l with
      | .error e => .error e
      | .ok (buf, rest) =>
        .ok (.socketV4 (buf.take 4) (readU16BE (buf.drop 4)), rest)
    | .ok .domain =>
      match readExact 1 l with
      | .error e => .error e
      | .ok (lenBuf, l1) =>
        let len := lenBuf.getD 0 0
        match readExact len l1 with
        | .error e => .error e
        | .ok (domainBuf, l2) =>
          match readExact 2 l2 with
          | .error e => .error e
          | .ok (portBuf, l3) =>
            if utf8Valid domainBuf then
              .ok (.domainAddress domainBuf (readU16BE portBuf), l3)
            else .error .invalidEncoding
    | .ok .ipv6 =>
      match readExact 18 l with
      | .error e => .error e
      | .ok (buf, rest) =>
        .ok (.socketV6 (buf.take 16) (readU16BE (buf.drop 16)), rest)

/-- `Address::retrieve_from_async_stream` (`address.rs` lines 190-228), the
asynchronous reader: `read_u8` for ATYP, then per-type `read_exact` of the
octets and `read_u16` for the port; the Domain case reads the length byte,
the domain bytes and the port before the UTF-8 check. -/
def Address.retrieve_from_async_stream (l : List Nat) : Except Err (Address × List Nat) :=
  match l with
  | [] => .error .eof
  | atyp :: l =>
    match AddressType.tryFrom atyp with
    | .error e => .error e
    | .ok .ipv4 =>
      match readExact 4 l with
      | .error e => .error e
      | .ok (addrBytes, l1) =>
        match readExact 2 l1 with
        | .error e => .error e
        | .ok (portBuf, rest) => .ok (.socketV4 addrBytes (readU16BE portBuf), rest)
    | .ok .domain =>
      match readExact 1 l with
      | .error e => .error e
      | .ok (lenBuf, l1) =>
        let len := lenBuf.getD 0 0
        match readExact len l1 with
        | .error e => .error e
        | .ok (domainBuf, l2) =>
          match readExact 2 l2 with
          | .error e => .error e
          | .ok (portBuf, l3) =>
            if utf8Valid domainBuf then
              .ok (.domainAddress domainBuf (readU16BE portBuf), l3)
            else .error .invalidEncoding
    | .ok .ipv6 =>
      match readExact 16 l with
      | .error e => .error e
      | .ok (addrBytes, l1) =>
        match readExact 2 l1 with
        | .error e => .error e
        | .ok (portBuf, rest) => .ok (.socketV6 addrBytes (readU16BE portBuf), rest)

/-- The extra invariant the spec places on domains (`name.len() ≤ 255`),
not enforced by the Rust `Address` type itself. -/
def Address.domainLenOK : Address → Prop
  | .domainAddress name _ => name.length ≤ 255
  | _ => True

theorem readExact_append (a b : List Nat) : readExact a.length (a ++ b) = .ok (a, b) := by
  simp [readExact, List.take_left, List.drop_left]

theorem readExact_len_eq (n : Nat) (a b : List Nat) (h : a.length = n) :
    readExact n (a ++ b) = .ok (a, b) := by
  subst h; exact readExact_append a b

theorem readExact_all (l : List Nat) : readExact l.length l = .ok (l, []) := by
  simp [readExact]

theorem readExact_exact (n : Nat) (l : List Nat) (h : l.length = n) :
    readExact n l = .ok (l, []) := by
  subst h; exact readExact_all l

theorem readExact_zero (l : List Nat) : readExact 0 l = .ok ([], l) := by
  simp [readExact]

theorem readExact_one (x : Nat) (xs : List Nat) : readExact 1 (x :: xs) = .ok ([x], xs) := by
  simp [readExact]

theorem readExact_two (a b : Nat) (xs : List Nat) :
    readExact 2 (a :: b :: xs) = .ok ([a, b], xs) := by
  simp [readExact]

theorem readU16BE_putU16 (n : Nat) (h : n < 65536) : readU16BE (putU16 n) = n := by
  simp [readU16BE, putU16, List.getD]
  omega

theorem utf8ValidFuel_ascii (fuel : Nat) (l : List Nat) (h : ∀ b ∈ l, b < 128)
    (hf : l.length ≤ fuel) : utf8ValidFuel fuel l = true := by
  induction fuel generalizing l with
  | zero =>
    cases l with
    | nil => rfl
    | cons b t => simp at hf
  | succ n ih =>
    cases l with
    | nil => rfl
    | cons b t =>
      rw [utf8ValidFuel]
      rw [if_pos (h b (by simp))]
      exact ih t (fun x hx => h x (by simp [hx])) (by simp at hf; omega)

theorem utf8Valid_ascii (l : List Nat) (h : ∀ b ∈ l, b < 128) : utf8Valid l = true :=
  utf8ValidFuel_ascii l.length l h le_rfl

/-- `Version` (`src/socks5-impl/src/protocol/mod.rs` lines 28-32). -/
inductive Version where
  | v4 : Version
  | v5 : Version
  deriving DecidableEq, Repr

/-- `Version::try_from` (`protocol/mod.rs` lines 34-44): 4 and 5 are the
only byte values with a `Version`, all others are `InvalidData`. -/
def Version.tryFrom (value : Nat) : Except Err Version :=
  if value = 4 then .ok .v4
  else if value = 5 then .ok .v5
  else .error .invalidVersion

/-- `AuthMethod` (modelled from the spec §3.4, the type itself is not under
`src/`): a one-byte tag, `0x00` NoAuth, `0x02` UserPass, `0xFF`
NoAcceptable, all other byte values opaque — i.e. the type is isomorphic to
a byte, so a method is modelled as its byte. -/
def AuthMethod.noAuth : Nat := 0x00

/-- `AuthMethod::UserPass` byte tag (spec §3.4). -/
def AuthMethod.userPass : Nat := 0x02

/-- `AuthMethod::NoAcceptableMethods` byte tag (spec §3.4). -/
def AuthMethod.noAcceptableMethods : Nat := 0xFF

/-- `handshake::Request` (`protocol/handshake/request.rs` lines 17-19):
the negotiated method list, each method its byte. -/
structure HandshakeRequest where
  methods : List Nat
  deriving DecidableEq, Repr

/-- `Request::evaluate_method` (`handshake/request.rs` lines 26-28). -/
def HandshakeRequest.evaluate_method (req : HandshakeRequest) (server_method : Nat) : Bool :=
  req.methods.contains server_method

/-- `Request::retrieve_from_stream` (`handshake/request.rs` lines 32-59):
read the version byte through `Version::try_from`, reject a parsed version
other than V5 with the unsupported-version error, then read `NMETHODS` and
that many method bytes.  (The stack-versus-heap buffer split for
`mlen ≤ 8` has no observable effect and is not modelled.) -/
def HandshakeRequest.retrieve_from_stream (l : List Nat) :
    Except Err (HandshakeRequest × List Nat) :=
  match l with
  | [] => .error .eof
  | verByte :: l1 =>
    match Version.tryFrom verByte with
    | .error e => .error e
    | .ok ver =>
      if ver ≠ Version.v5 then .error (.unsupportedSocksVersion verByte)
      else
        match l1 with
        | [] => .error .eof
        | mlen :: l2 =>
          match readExact mlen l2 with
          | .error e => .error e
          | .ok (methods, rest) => .ok (⟨methods⟩, rest)

/-- `Request::retrieve_from_async_stream` (`handshake/request.rs` lines
77-103): identical reads through `read_u8` and `read_exact`. -/
def HandshakeRequest.retrieve_from_async_stream (l : List Nat) :
    Except Err (HandshakeRequest × List Nat) :=
  match l with
  | [] => .error .eof
  | verByte :: l1 =>
    match Version.tryFrom verByte with
    | .error e => .error e
    | .ok ver =>
      if ver ≠ Version.v5 then .error (.unsupportedSocksVersion verByte)
      else
        match l1 with
        | [] => .error .eof
        | mlen :: l2 =>
          match readExact mlen l2 with
          | .error e => .error e
          | .ok (methods, rest) => .ok (⟨methods⟩, rest)

/-- `handshake::Response::write_to_buf` (`handshake/response.rs` lines
42-45): `VER(5)` then the method byte. -/
def handshakeResponseBytes (method : Nat) : List Nat := [5, method]

/-- `IncomingConnection::evaluate_request`
(`server/connection/mod.rs` lines 56-63): if the client offered the
configured method return it, OTHERWISE return `Some(AuthMethod::NoAuth)` —
this function never returns `None`. -/
def evaluate_request (serverMethod : Nat) (req : HandshakeRequest) : Option Nat :=
  if req.evaluate_method serverMethod then some serverMethod
  else some AuthMethod.noAuth

/-- Phase 1 of `IncomingConnection::authenticate`
(`server/connection/mod.rs` lines 39-54): read the handshake request, pick
a method with `evaluate_request`; on `Some`, write `VER(5) | METHOD` and
proceed (the subsequent `auth.execute` sub-negotiation is outside this
model, so the result carries the chosen method and the unread rest of the
stream); on `None`, write `VER(5) | 0xFF` and fail.  The second component
is the trace of bytes written to the stream. -/
def authenticate (serverMethod : Nat) (input : List Nat) :
    Except Err (Nat × List Nat) × List Nat :=
  match HandshakeRequest.retrieve_from_async_stream input with
  | .error e => (.error e, [])
  | .ok (request, rest) =>
    match evaluate_request serverMethod request with
    | some method => (.ok (method, rest), handshakeResponseBytes method)
    | none => (.error .noAcceptableMethod,
               handshakeResponseBytes AuthMethod.noAcceptableMethods)

end S5

namespace H1

/-- Errors of `http-impl` (`src/http-impl/src/error.rs`).  The source
stores a message string inside `InvalidRequest` / `InvalidResponse` /
`InvalidHeader`; the distinct construction sites used by the claims are
modelled as distinct constructors. -/
inductive Err where
  /-- `InvalidRequest("Connection closed")` / `InvalidResponse(..)`,
  `async_ext.rs` lines 22 and 70. -/
  | connectionClosed : Err
  /-- `InvalidRequest("Header too large")` / `InvalidResponse(..)`,
  `async_ext.rs` lines 29 and 77. -/
  | headerTooLarge : Err
  /-- httparse failing on the request line, or `Incomplete`, mapped to
  `InvalidRequest` (`request.rs` lines 22-31). -/
  | invalidRequestLine : Err
  /-- httparse failing on the status line, mapped to `InvalidResponse`
  (`response.rs` lines 49-57). -/
  | invalidStatusLine : Err
  /-- `StatusCode::from_u16` failing (`response.rs` lines 62-63). -/
  | invalidStatusCode : Err
  /-- a malformed header line, mapped to `InvalidHeader`. -/
  | invalidHeader : Err
  /-- httparse `TooManyHeaders`: more headers than the 64 preallocated
  slots (`request.rs` line 19, `response.rs` line 46). -/
  | tooManyHeaders : Err
  deriving DecidableEq, Repr

/-- `MAX_HEADER_SIZE` (`async_ext.rs` line 6): 32 KiB. -/
def MAX_HEADER_SIZE : Nat := 1024 * 32

/-- `BUFFER_SIZE` (`async_ext.rs` line 7): the 4-KiB read chunk. -/
def BUFFER_SIZE : Nat := 4096

/-- `CRLF2` (`async_ext.rs` line 8): the header terminator bytes. -/
def CRLF2 : List Nat := [13, 10, 13, 10]

/-- Whether a byte list starts with the four terminator bytes. -/
def startsCRLF2 (l : List Nat) : Bool := decide (l.take 4 = CRLF2)

/-- `memchr::memmem::find(buf, CRLF2).is_some()`: whether the terminator
occurs anywhere in the list. -/
def hasCRLF2 : List Nat → Bool
  | [] => false
  | b :: t => startsCRLF2 (b :: t) || hasCRLF2 t

/-- The read-and-accumulate loop of `HttpRequest::from_stream`
(`async_ext.rs` lines 16-42), over the sequence of byte chunks the stream
delivers (one list entry per `read` call; an empty entry is a read
returning 0, and an exhausted entry list behaves like the closed stream it
models).  After each read: fail if the buffer exceeds 32 KiB, then stop if
the final four bytes are the terminator (fast path), then stop if the
terminator occurs in the overlap region from `prev_len - 3` on.  Returns
the accumulated buffer at the stop. -/
def from_stream_loop : List (List Nat) → List Nat → Except Err (List Nat)
  | [], _ => .error .connectionClosed
  | chunk :: restChunks, buffer =>
    if chunk.length = 0 then .error .connectionClosed
    else
      if (buffer ++ chunk).length > MAX_HEADER_SIZE then .error .headerTooLarge
      else if 4 ≤ (buffer ++ chunk).length ∧
          (buffer ++ chunk).drop ((buffer ++ chunk).length - 4) = CRLF2 then
        .ok (buffer ++ chunk)
      else if hasCRLF2 ((buffer ++ chunk).drop (buffer.length - 3)) then
        .ok (buffer ++ chunk)
      else from_stream_loop restChunks (buffer ++ chunk)

/-- Byte allowed in an RFC 7230 token (method bytes, header-name bytes),
as enforced by httparse and `HeaderName::from_bytes`. -/
def isTokenByte (b : Nat) : Bool :=
  (48 ≤ b && b ≤ 57) || (65 ≤ b && b ≤ 90) || (97 ≤ b && b ≤ 122) ||
    b == 33 || b == 35 || b == 36 || b == 37 || b == 38 || b == 39 || b == 42 ||
    b == 43 || b == 45 || b == 46 || b == 94 || b == 95 || b == 96 || b == 124 ||
    b == 126

/-- Byte allowed in a request target (printable ASCII except space). -/
def isUriByte (b : Nat) : Bool := 33 ≤ b && b ≤ 126

/-- Byte allowed in a header value (`HeaderValue` and httparse agree):
horizontal tab, printable ASCII, or a high byte; no other controls and no
DEL. -/
def isValueByte (b : Nat) : Bool := b == 9 || (32 ≤ b && b ≤ 126) || (128 ≤ b && b < 256)

/-- ASCII lowercasing of one byte, as `HeaderName` applies to names. -/
def lowerByte (b : Nat) : Nat := if 65 ≤ b ∧ b ≤ 90 then b + 32 else b

/-- ASCII lowercasing of a name, as `HeaderName::from_bytes` stores it. -/
def lowerName (l : List Nat) : List Nat := l.map lowerByte

/-- `http::Uri` restricted to the origin-form request targets this codec
meets: a path and an optional query, both as byte lists (`Uri` equality in
the `http` crate compares the components). -/
structure Uri where
  path : List Nat
  query : Option (List Nat)
  deriving DecidableEq, Repr

/-- `str::parse::<Uri>` on an origin-form request target: the path is
everything before the first `?`, the query everything after it. -/
def Uri.ofTarget (s : List Nat) : Uri :=
  match s.dropWhile (fun b => b != 63) with
  | [] => ⟨s.takeWhile (fun b => b != 63), none⟩
  | _ :: q => ⟨s.takeWhile (fun b => b != 63), some q⟩

/-- The `http::HeaderMap`: an insertion-ordered list of (lowercased name,
value) pairs with unique names.  `insert` replaces the value in place when
the name is present and appends otherwise. -/
def insertHeader (m : List (List Nat × List Nat)) (name value : List Nat) :
    List (List Nat × List Nat) :=
  if m.any (fun p => p.1 == name) then
    m.map (fun p => if p.1 == name then (name, value) else p)
  else m ++ [(name, value)]

/-- `HeaderMap::get(name)` with the case-insensitive lookup both
`HttpRequest::header` and `HttpResponse::header` use. -/
def headerLookup (m : List (List Nat × List Nat)) (name : List Nat) : Option (List Nat) :=
  (m.find? (fun p => p.1 == lowerName name)).map (fun p => p.2)

/-- The request line of the httparse grammar on the fragment this codec
meets: `METHOD SP TARGET SP "HTTP/1.1" CRLF`, the method a nonempty token,
the target nonempty printable bytes.  Returns method, target and the rest
after the CRLF. -/
def parseRequestLine (l : List Nat) : Except Err (List Nat × List Nat × List Nat) :=
  if (l.takeWhile isTokenByte).length = 0 then .error .invalidRequestLine
  else
    match l.dropWhile isTokenByte with
    | 32 :: r2 =>
      if (r2.takeWhile isUriByte).length = 0 then .error .invalidRequestLine
      else
        match r2.dropWhile isUriByte with
        | 32 :: 72 :: 84 :: 84 :: 80 :: 47 :: 49 :: 46 :: 49 :: 13 :: 10 :: r4 =>
          .ok (l.takeWhile isTokenByte, r2.takeWhile isUriByte, r4)
        | _ => .error .invalidRequestLine
    | _ => .error .invalidRequestLine

/-- The header block of the httparse grammar: lines `NAME ":" OWS VALUE
CRLF` (name a nonempty token, leading spaces and tabs after the colon
skipped, the value running to the end of the line) terminated by an empty
`CRLF` line.  Returns the (raw-case) name/value pairs in order and the
bytes after the terminator.  The fuel is only for structural recursion;
any fuel of at least the list length gives the same answer. -/
def parseHeaderLines (fuel : Nat) (l : List Nat) (acc : List (List Nat × List Nat)) :
    Except Err (List (List Nat × List Nat) × List Nat) :=
  if l.take 2 = [13, 10] then .ok (acc.reverse, l.drop 2)
  else
    match fuel with
    | 0 => .error .invalidHeader
    | fuel + 1 =>
        if (l.takeWhile isTokenByte).length = 0 then .error .invalidHeader
        else
          match l.dropWhile isTokenByte with
          | 58 :: r2 =>
            match (r2.dropWhile (fun b => b == 32 || b == 9)).dropWhile isValueByte with
            | 13 :: 10 :: r5 =>
              parseHeaderLines fuel r5
                ((l.takeWhile isTokenByte,
                  (r2.dropWhile (fun b => b == 32 || b == 9)).takeWhile isValueByte) :: acc)
            | _ => .error .invalidHeader
          | _ => .error .invalidHeader

/-- `HttpRequest` (`request.rs` lines 8-14): the method as its token
bytes, the parsed `Uri`, the header map, the body bytes and the raw-bytes
view. -/
structure HttpRequest where
  method : List Nat
  uri : Uri
  headers : List (List Nat × List Nat)
  body : List Nat
  raw_bytes : List Nat
  deriving DecidableEq, Repr

/-- `HttpRequest::parse` (`request.rs` lines 18-70): run httparse (modelled
by `parseRequestLine` and `parseHeaderLines` with the 64-header cap), then
re-insert every parsed header into a `HeaderMap` in order — so a later
duplicate of a name overwrites the earlier value — and keep everything
after the header terminator as the body and the whole input as the
raw-bytes view. -/
def HttpRequest.parse (data : List Nat) : Except Err HttpRequest :=
  match parseRequestLine data with
  | .error e => .error e
  | .ok (method, target, afterLine) =>
    match parseHeaderLines afterLine.length afterLine [] with
    | .error e => .error e
    | .ok (hdrList, body) =>
      if hdrList.length > 64 then .error .tooManyHeaders
      else
        .ok { method := method, uri := Uri.ofTarget target,
              headers := hdrList.foldl (fun m p => insertHeader m (lowerName p.1) p.2) [],
              body := body, raw_bytes := data }

/-- `HttpRequestBuilder` (`request.rs` lines 108-114); the `Building` /
`Complete` type states carry no data, so one structure models both and
`build` is the identity transition. -/
structure HttpRequestBuilder where
  method : Option (List Nat)
  uri : Option Uri
  headers : List (List Nat × List Nat)
  body : List Nat
  deriving DecidableEq, Repr

/-- `HttpRequestBuilder::new` (`request.rs` lines 118-126). -/
def HttpRequestBuilder.new : HttpRequestBuilder := ⟨none, none, [], []⟩

/-- `HttpRequestBuilder::method` (`request.rs` lines 129-132). -/
def HttpRequestBuilder.withMethod (b : HttpRequestBuilder) (m : List Nat) :
    HttpRequestBuilder := { b with method := some m }

/-- `HttpRequestBuilder::uri` (`request.rs` lines 135-138). -/
def HttpRequestBuilder.withUri (b : HttpRequestBuilder) (u : Uri) :
    HttpRequestBuilder := { b with uri := some u }

/-- `HttpRequestBuilder::header` (`request.rs` lines 141-149): validate
name and value (`HeaderName::from_bytes` demands a nonempty token and
lowercases, `HeaderValue::from_str` demands value bytes); on failure the
header is silently skipped, on success it is inserted into the map. -/
def HttpRequestBuilder.withHeader (b : HttpRequestBuilder) (name value : List Nat) :
    HttpRequestBuilder :=
  if name.length ≠ 0 ∧ name.all isTokenByte ∧ value.all isValueByte then
    { b with headers := insertHeader b.headers (lowerName name) value }
  else b

/-- `HttpRequestBuilder::body` (`request.rs` lines 152-155). -/
def HttpRequestBuilder.withBody (b : HttpRequestBuilder) (body : List Nat) :
    HttpRequestBuilder := { b with body := body }

/-- `HttpRequestBuilder::build` (`request.rs` lines 158-166): the
type-state transition, carrying all fields over unchanged. -/
def HttpRequestBuilder.build (b : HttpRequestBuilder) : HttpRequestBuilder := b

/-- The serialized header block of `finish`: each map entry as
`NAME ": " VALUE CRLF` in map order. -/
def renderHeaders : List (List Nat × List Nat) → List Nat
  | [] => []
  | (n, v) :: t => n ++ [58, 32] ++ v ++ [13, 10] ++ renderHeaders t

/-- `HttpRequestBuilder::<Complete>::finish` (`request.rs` lines 171-199):
default method GET, default URI `/`; the raw bytes are the method, a
space, `uri.path()` — NOT the full URI — a space, `HTTP/1.1` CRLF, the
rendered headers, CRLF, then the body; the parsed-field view shares the
builder's method, full URI, headers and body. -/
def HttpRequestBuilder.finish (b : HttpRequestBuilder) : HttpRequest :=
  { method := b.method.getD [71, 69, 84],
    uri := b.uri.getD ⟨[47], none⟩,
    headers := b.headers,
    body := b.body,
    raw_bytes :=
      (b.method.getD [71, 69, 84]) ++ [32] ++ (b.uri.getD ⟨[47], none⟩).path ++
        [32, 72, 84, 84, 80, 47, 49, 46, 49, 13, 10] ++
        renderHeaders b.headers ++ [13, 10] ++ b.body }

/-- `HttpRequest::from_stream` (`async_ext.rs` lines 12-45): run the
read-and-accumulate loop from the empty buffer, then parse the buffered
bytes.  (`parse_bytes`, the zero-copy entry the loop hands the buffer to,
is not under `src/`; modelled from the spec §9 "Zero-copy buffers": its
contract is identical to `parse`.) -/
def HttpRequest.from_stream (chunks : List (List Nat)) : Except Err HttpRequest :=
  match from_stream_loop chunks [] with
  | .error e => .error e
  | .ok buffer => HttpRequest.parse buffer

/-- The status line of the httparse response grammar on the fragment this
codec meets: `"HTTP/1.1" SP CODE(3 digits) SP REASON CRLF`.  Returns the
code, the reason bytes and the rest after the CRLF. -/
def parseStatusLine (l : List Nat) : Except Err (Nat × List Nat × List Nat) :=
  match l with
  | 72 :: 84 :: 84 :: 80 :: 47 :: 49 :: 46 :: 49 :: 32 :: rest =>
    match rest with
    | d1 :: d2 :: d3 :: 32 :: r2 =>
      if 48 ≤ d1 ∧ d1 ≤ 57 ∧ 48 ≤ d2 ∧ d2 ≤ 57 ∧ 48 ≤ d3 ∧ d3 ≤ 57 then
        match (r2.dropWhile isValueByte) with
        | 13 :: 10 :: r3 =>
          .ok ((d1 - 48) * 100 + (d2 - 48) * 10 + (d3 - 48),
               r2.takeWhile isValueByte, r3)
        | _ => .error .invalidStatusLine
      else .error .invalidStatusLine
    | _ => .error .invalidStatusLine
  | _ => .error .invalidStatusLine

/-- `HttpResponse` (`response.rs` lines 37-42): status code, header map,
body, raw-bytes view (the reason phrase is not kept by the source type). -/
structure HttpResponse where
  status : Nat
  headers : List (List Nat × List Nat)
  body : List Nat
  raw_bytes : List Nat
  deriving DecidableEq, Repr

/-- `HttpResponse::parse` (`response.rs` lines 45-83): parse the status
line, validate the code with `StatusCode::from_u16` (100..=999), parse the
headers with the 64-header cap and re-insert them in order into a
`HeaderMap` — later duplicates overwrite — with the body and raw bytes as
for requests. -/
def HttpResponse.parse (data : List Nat) : Except Err HttpResponse :=
  match parseStatusLine data with
  | .error e => .error e
  | .ok (code, _reason, afterLine) =>
    if code < 100 then .error .invalidStatusCode
    else
      match parseHeaderLines afterLine.length afterLine [] with
      | .error e => .error e
      | .ok (hdrList, body) =>
        if hdrList.length > 64 then .error .tooManyHeaders
        else
          .ok { status := code,
                headers := hdrList.foldl (fun m p => insertHeader m (lowerName p.1) p.2) [],
                body := body, raw_bytes := data }

theorem startsCRLF2_iff (l : List Nat) :
    startsCRLF2 l = true ↔ ∃ t, l = CRLF2 ++ t := by
  constructor
  · intro h
    refine ⟨l.drop 4, ?_⟩
    have ht : l.take 4 = CRLF2 := by simpa [startsCRLF2] using h
    conv_lhs => rw [← List.take_append_drop 4 l, ht]
  · rintro ⟨t, rfl⟩
    simp [startsCRLF2, CRLF2]

theorem hasCRLF2_iff (l : List Nat) :
    hasCRLF2 l = true ↔ ∃ s t, l = s ++ CRLF2 ++ t := by
  induction l with
  | nil =>
    simp only [hasCRLF2, Bool.false_eq_true, false_iff]
    rintro ⟨s, t, h⟩
    have := congrArg List.length h
    simp [CRLF2] at this
    omega
  | cons b tl ih =>
    rw [hasCRLF2, Bool.or_eq_true, startsCRLF2_iff, ih]
    constructor
    · rintro (⟨t, ht⟩ | ⟨s, t, hst⟩)
      · exact ⟨[], t, by simpa using ht⟩
      · exact ⟨b :: s, t, by simp [hst]⟩
    · rintro ⟨s, t, hst⟩
      cases s with
      | nil => exact Or.inl ⟨t, by simpa using hst⟩
      | cons x s' =>
        refine Or.inr ⟨s', t, ?_⟩
        simpa using congrArg List.tail hst

theorem hasCRLF2_append_right (s t : List Nat) (h : hasCRLF2 t = true) :
    hasCRLF2 (s ++ t) = true := by
  rw [hasCRLF2_iff] at h ⊢
  obtain ⟨a, c, rfl⟩ := h
  exact ⟨s ++ a, c, by simp⟩

theorem hasCRLF2_append_left (s t : List Nat) (h : hasCRLF2 s = true) :
    hasCRLF2 (s ++ t) = true := by
  rw [hasCRLF2_iff] at h ⊢
  obtain ⟨a, c, rfl⟩ := h
  exact ⟨a, c ++ t, by simp⟩

theorem hasCRLF2_of_drop (l : List Nat) (i : Nat)
    (h : hasCRLF2 (l.drop i) = true) : hasCRLF2 l = true := by
  have := hasCRLF2_append_right (l.take i) (l.drop i) h
  rwa [List.take_append_drop] at this

theorem hasCRLF2_prefix_false (a b : List Nat) (h : hasCRLF2 (a ++ b) = false) :
    hasCRLF2 a = false := by
  by_contra hc
  rw [hasCRLF2_append_left a b (by revert hc; cases hasCRLF2 a <;> simp)] at h
  exact absurd h (by simp)

theorem hasCRLF2_of_suffix4 (l : List Nat) (h4 : 4 ≤ l.length)
    (h : l.drop (l.length - 4) = CRLF2) : hasCRLF2 l = true := by
  rw [hasCRLF2_iff]
  refine ⟨l.take (l.length - 4), [], ?_⟩
  rw [List.append_nil, ← h, List.take_append_drop]

theorem hasCRLF2_overlap (b c : List Nat)
    (hbc : hasCRLF2 (b ++ c) = true) (hb : hasCRLF2 b = false) :
    hasCRLF2 ((b ++ c).drop (b.length - 3)) = true := by
  rw [hasCRLF2_iff] at hbc
  obtain ⟨s, t, hst⟩ := hbc
  have hnot : ¬ (s.length + 4 ≤ b.length) := by
    intro hle
    have hb' : b = s ++ CRLF2 ++ (t.take (b.length - s.length - 4)) := by
      have h1 : b = (b ++ c).take b.length := by
        rw [show b.length = b.length from rfl, List.take_left]
      rw [hst] at h1
      rw [h1, List.append_assoc, List.take_append_eq_append_take,
        List.take_of_length_le (by omega), List.take_append_eq_append_take,
        List.take_of_length_le (show CRLF2.length ≤ b.length - s.length by
          simp [CRLF2]; omega)]
      simp [CRLF2]
    have htrue : hasCRLF2 (s ++ CRLF2 ++ t.take (b.length - s.length - 4)) = true := by
      rw [hasCRLF2_iff]
      exact ⟨s, t.take (b.length - s.length - 4), rfl⟩
    rw [hb', htrue] at hb
    cases hb
  have hle : b.length - 3 ≤ s.length := by omega
  rw [hst, List.append_assoc, List.drop_append_eq_append_drop,
    show b.length - 3 - s.length = 0 by omega, List.drop_zero]
  exact hasCRLF2_append_right _ _ (by
    rw [hasCRLF2_iff]; exact ⟨[], t, by rw [List.nil_append]⟩)

theorem from_stream_loop_ok (chunks : List (List Nat)) :
    ∀ (buffer out : List Nat), from_stream_loop chunks buffer = .ok out →
      hasCRLF2 out = true ∧ out.length ≤ MAX_HEADER_SIZE ∧
      ∃ k, k ≤ chunks.length ∧ out = buffer ++ (chunks.take k).flatten := by
  induction chunks with
  | nil =>
    intro buffer out h
    simp [from_stream_loop] at h
  | cons c rest ih =>
    intro buffer out h
    rw [from_stream_loop] at h
    by_cases hc : c.length = 0
    · rw [if_pos hc] at h; cases h
    rw [if_neg hc] at h
    by_cases hbig : (buffer ++ c).length > MAX_HEADER_SIZE
    · rw [if_pos hbig] at h; cases h
    rw [if_neg hbig] at h
    by_cases hfast : 4 ≤ (buffer ++ c).length ∧
        (buffer ++ c).drop ((buffer ++ c).length - 4) = CRLF2
    · rw [if_pos hfast] at h
      injection h with h
      subst h
      exact ⟨hasCRLF2_of_suffix4 _ hfast.1 hfast.2, by omega,
        ⟨1, by simp, by simp⟩⟩
    rw [if_neg hfast] at h
    by_cases hov : hasCRLF2 ((buffer ++ c).drop (buffer.length - 3)) = true
    · rw [if_pos hov] at h
      injection h with h
      subst h
      exact ⟨hasCRLF2_of_drop _ _ hov, by omega, ⟨1, by simp, by simp⟩⟩
    rw [if_neg hov] at h
    obtain ⟨h1, h2, k, hk, hout⟩ := ih (buffer ++ c) out h
    exact ⟨h1, h2, k + 1, by simpa using hk, by simp [hout]⟩

theorem from_stream_loop_closed (chunks : List (List Nat)) :
    ∀ buffer, hasCRLF2 (buffer ++ chunks.flatten) = false →
      (buffer ++ chunks.flatten).length ≤ MAX_HEADER_SIZE →
      from_stream_loop chunks buffer = .error .connectionClosed := by
  induction chunks with
  | nil => intro buffer _ _; rfl
  | cons c rest ih =>
    intro buffer hterm hlen
    have hterm' : hasCRLF2 ((buffer ++ c) ++ rest.flatten) = false := by
      simpa [List.append_assoc] using hterm
    have hbc : hasCRLF2 (buffer ++ c) = false := hasCRLF2_prefix_false _ _ hterm'
    have hlen' : ((buffer ++ c) ++ rest.flatten).length ≤ MAX_HEADER_SIZE := by
      simpa [List.append_assoc] using hlen
    rw [from_stream_loop]
    by_cases hc : c.length = 0
    · rw [if_pos hc]
    · rw [if_neg hc]
      rw [if_neg (by simp at hlen' ⊢; omega)]
      rw [if_neg (fun hfast => by
        rw [hasCRLF2_of_suffix4 _ hfast.1 hfast.2] at hbc; cases hbc)]
      rw [if_neg (fun hov => by
        rw [hasCRLF2_of_drop _ _ hov] at hbc; cases hbc)]
      exact ih (buffer ++ c) hterm' hlen'

theorem from_stream_loop_too_large (chunks : List (List Nat)) :
    ∀ buffer, hasCRLF2 ((buffer ++ chunks.flatten).take MAX_HEADER_SIZE) = false →
      (∀ ch ∈ chunks, ch ≠ []) →
      (buffer ++ chunks.flatten).length > MAX_HEADER_SIZE →
      buffer.length ≤ MAX_HEADER_SIZE →
      from_stream_loop chunks buffer = .error .headerTooLarge := by
  induction chunks with
  | nil =>
    intro buffer _ _ hgt hle
    simp at hgt
    omega
  | cons c rest ih =>
    intro buffer hterm hne hgt hle
    rw [from_stream_loop]
    have hcne : c ≠ [] := hne c (by simp)
    rw [if_neg (fun h => hcne (List.length_eq_zero.mp h))]
    by_cases hbig : (buffer ++ c).length > MAX_HEADER_SIZE
    · rw [if_pos hbig]
    · rw [if_neg hbig]
      have hassoc : buffer ++ (c :: rest).flatten = (buffer ++ c) ++ rest.flatten := by
        simp
      have hbc : hasCRLF2 (buffer ++ c) = false := by
        have hx : ((buffer ++ c) ++ rest.flatten).take MAX_HEADER_SIZE =
            (buffer ++ c) ++ rest.flatten.take (MAX_HEADER_SIZE - (buffer ++ c).length) := by
          rw [List.take_append_eq_append_take, List.take_of_length_le (by omega)]
        rw [hassoc, hx] at hterm
        exact hasCRLF2_prefix_false _ _ hterm
      rw [if_neg (fun hfast => by
        rw [hasCRLF2_of_suffix4 _ hfast.1 hfast.2] at hbc; cases hbc)]
      rw [if_neg (fun hov => by
        rw [hasCRLF2_of_drop _ _ hov] at hbc; cases hbc)]
      refine ih (buffer ++ c) ?_ (fun ch hch => hne ch (by simp [hch])) ?_ (by omega)
      · rw [← hassoc]
        exact hterm
      · rw [← hassoc]
        exact hgt

theorem from_stream_loop_stops (k : Nat) :
    ∀ (chunks : List (List Nat)) (buffer : List Nat),
      k ≤ chunks.length →
      (∀ ch ∈ chunks.take k, ch ≠ []) →
      hasCRLF2 buffer = false →
      hasCRLF2 (buffer ++ (chunks.take k).flatten) = true →
      (∀ j < k, hasCRLF2 (buffer ++ (chunks.take j).flatten) = false) →
      (buffer ++ (chunks.take k).flatten).length ≤ MAX_HEADER_SIZE →
      from_stream_loop chunks buffer = .ok (buffer ++ (chunks.take k).flatten) := by
  induction k with
  | zero =>
    intro chunks buffer _ _ hb ht _ _
    simp at ht
    rw [ht] at hb
    cases hb
  | succ k ih =>
    intro chunks buffer hk hne hb ht hmin hcap
    cases chunks with
    | nil => simp at hk
    | cons c rest =>
      rw [from_stream_loop]
      have hcne : c ≠ [] := hne c (by simp)
      rw [if_neg (fun h => hcne (List.length_eq_zero.mp h))]
      have hcap' : ((buffer ++ c) ++ (rest.take k).flatten).length ≤ MAX_HEADER_SIZE := by
        simpa [List.append_assoc] using hcap
      rw [if_neg (by simp at hcap' ⊢; omega)]
      cases Nat.eq_zero_or_pos k with
      | inl h0 =>
        subst h0
        have hterm2 : hasCRLF2 (buffer ++ c) = true := by simpa using ht
        by_cases hfast : 4 ≤ (buffer ++ c).length ∧
            (buffer ++ c).drop ((buffer ++ c).length - 4) = CRLF2
        · rw [if_pos hfast]
          simp
        · rw [if_neg hfast]
          rw [if_pos (hasCRLF2_overlap buffer c hterm2 hb)]
          simp
      | inr hkpos =>
        have hb2 : hasCRLF2 (buffer ++ c) = false := by
          have := hmin 1 (by omega)
          simpa using this
        rw [if_neg (fun hfast => by
          rw [hasCRLF2_of_suffix4 _ hfast.1 hfast.2] at hb2; cases hb2)]
        rw [if_neg (fun hov => by
          rw [hasCRLF2_of_drop _ _ hov] at hb2; cases hb2)]
        have hres := ih rest (buffer ++ c) (by simpa using hk)
          (fun ch hch => hne ch (by simp [hch])) hb2
          (by simpa [List.append_assoc] using ht)
          (fun j hj => by
            have := hmin (j + 1) (by omega)
            simpa [List.append_assoc] using this)
          hcap'
        rw [hres]
        simp

theorem hasCRLF2_replicate97 (n : Nat) : hasCRLF2 (List.replicate n 97) = false := by
  induction n with
  | zero => rfl
  | succ m ih =>
    rw [List.replicate_succ, hasCRLF2]
    simp only [startsCRLF2, CRLF2, ih, Bool.or_false]
    simp

theorem replicate97_ne_CRLF2 (j : Nat) : List.replicate j 97 ≠ CRLF2 := by
  intro h
  have h0 : (List.replicate j 97).getD 0 0 = 13 := by rw [h]; rfl
  cases j with
  | zero => simp [List.getD] at h0
  | succ m => rw [List.replicate_succ] at h0; simp at h0

/-- One iteration of the read loop on an all-`'a'` chunk with an all-`'a'`
buffer, while the 32-KiB cap is respected: no terminator can be found and
the loop recurses with the grown buffer. -/
theorem loop_step_97 (n m : Nat) (rest : List (List Nat)) (hm : 0 < m)
    (hcap : n + m ≤ 32768) :
    from_stream_loop (List.replicate m 97 :: rest) (List.replicate n 97) =
      from_stream_loop rest (List.replicate (n + m) 97) := by
  rw [from_stream_loop]
  have hrep : List.replicate n 97 ++ List.replicate m 97 = List.replicate (n + m) 97 :=
    (List.replicate_add n m 97).symm
  rw [if_neg (by simp; omega)]
  rw [hrep]
  rw [if_neg (by simp [MAX_HEADER_SIZE]; omega)]
  rw [if_neg (fun hfast => by
    rw [List.drop_replicate] at hfast
    exact replicate97_ne_CRLF2 _ hfast.2)]
  rw [if_neg (by rw [List.drop_replicate, hasCRLF2_replicate97]; simp)]

theorem takeWhile_append_stop (p : Nat → Bool) (a : List Nat) (c : Nat) (b : List Nat)
    (ha : ∀ x ∈ a, p x = true) (hc : p c = false) :
    (a ++ c :: b).takeWhile p = a ∧ (a ++ c :: b).dropWhile p = c :: b := by
  induction a with
  | nil => simp [List.takeWhile, List.dropWhile, hc]
  | cons x t ih =>
    have hx : p x = true := ha x (by simp)
    have ht := ih (fun y hy => ha y (by simp [hy]))
    simp [List.takeWhile, List.dropWhile, hx, ht.1, ht.2]

theorem dropWhile_head_false (p : Nat → Bool) (l : List Nat)
    (h : ∀ x, l.headD x = x ∨ p (l.headD x) = false) : l.dropWhile p = l := by
  cases l with
  | nil => rfl
  | cons x t =>
    rcases h (x + 1) with hx | hx
    · simp at hx
    · simp at hx
      simp [List.dropWhile, hx]

theorem parseRequestLine_render (method target rest : List Nat)
    (hm0 : method ≠ []) (hm : method.all isTokenByte = true)
    (ht0 : target ≠ []) (ht : target.all isUriByte = true) :
    parseRequestLine
        (method ++ 32 ::
          (target ++ 32 :: 72 :: 84 :: 84 :: 80 :: 47 :: 49 :: 46 :: 49 :: 13 :: 10 :: rest)) =
      .ok (method, target, rest) := by
  have h1 := takeWhile_append_stop isTokenByte method 32
    (target ++ 32 :: 72 :: 84 :: 84 :: 80 :: 47 :: 49 :: 46 :: 49 :: 13 :: 10 :: rest)
    (fun x hx => by simpa using (List.all_eq_true.mp hm) x hx) (by decide)
  have h2 := takeWhile_append_stop isUriByte target 32
    (72 :: 84 :: 84 :: 80 :: 47 :: 49 :: 46 :: 49 :: 13 :: 10 :: rest)
    (fun x hx => by simpa using (List.all_eq_true.mp ht) x hx) (by decide)
  rw [parseRequestLine, h1.1, h1.2]
  rw [if_neg (by simpa [List.length_eq_zero] using hm0)]
  simp only [h2.1, h2.2]
  rw [if_neg (by simpa [List.length_eq_zero] using ht0)]

/-- Well-formedness of one header pair as the builder's `header` call
enforces it (`HeaderName` token, `HeaderValue` bytes) together with the RFC
7230 field-value form (no leading or trailing SP/HTAB), under which the
parser returns the value byte-for-byte. -/
def WFHeaderPair (p : List Nat × List Nat) : Prop :=
  p.1 ≠ [] ∧ p.1.all isTokenByte = true ∧ p.2.all isValueByte = true ∧
    p.2.headD 0 ≠ 32 ∧ p.2.headD 0 ≠ 9 ∧ p.2.getLastD 0 ≠ 32 ∧ p.2.getLastD 0 ≠ 9

theorem take2_ne_crlf_of_token (n : List Nat) (rest : List Nat) (hn0 : n ≠ [])
    (hn : n.all isTokenByte = true) : ¬ ((n ++ rest).take 2 = [13, 10]) := by
  cases n with
  | nil => exact absurd rfl hn0
  | cons a t =>
    intro h
    have ha : isTokenByte a = true := by
      have := List.all_eq_true.mp hn a (by simp)
      simpa using this
    have ha13 : a = 13 := by simpa using congrArg (fun l => l.headD 0) h
    subst ha13
    simp [isTokenByte] at ha

theorem renderHeaders_length_ge (hdrs : List (List Nat × List Nat)) :
    hdrs.length ≤ (renderHeaders hdrs).length := by
  induction hdrs with
  | nil => simp [renderHeaders]
  | cons hd t ih =>
    simp only [renderHeaders, List.length_append, List.length_cons]
    simp at ih ⊢
    omega

theorem parseHeaderLines_render (hdrs : List (List Nat × List Nat)) :
    ∀ (fuel : Nat) (body : List Nat) (acc : List (List Nat × List Nat)),
      (∀ p ∈ hdrs, WFHeaderPair p) → hdrs.length ≤ fuel →
      parseHeaderLines fuel (renderHeaders hdrs ++ 13 :: 10 :: body) acc =
        .ok (acc.reverse ++ hdrs, body) := by
  induction hdrs with
  | nil =>
    intro fuel body acc _ _
    rw [renderHeaders, List.nil_append, parseHeaderLines.eq_def]
    rw [if_pos (by simp)]
    simp
  | cons hd t ih =>
    intro fuel body acc hwf hfuel
    obtain ⟨hn0, hn, hv, hv32, hv9, -, -⟩ := hwf hd (by simp)
    have hshape : renderHeaders (hd :: t) ++ 13 :: 10 :: body =
        hd.1 ++ 58 :: (32 :: (hd.2 ++ 13 :: 10 :: (renderHeaders t ++ 13 :: 10 :: body))) := by
      rw [renderHeaders]
      simp
    rw [hshape, parseHeaderLines.eq_def]
    rw [if_neg (take2_ne_crlf_of_token hd.1 _ hn0 hn)]
    cases fuel with
    | zero => simp at hfuel
    | succ fuel =>
      have hspan1 := takeWhile_append_stop isTokenByte hd.1 58
        (32 :: (hd.2 ++ 13 :: 10 :: (renderHeaders t ++ 13 :: 10 :: body)))
        (fun x hx => by simpa using (List.all_eq_true.mp hn) x hx) (by decide)
      rw [hspan1.1, hspan1.2]
      have hws : (hd.2 ++ 13 :: 10 :: (renderHeaders t ++ 13 :: 10 :: body)).dropWhile
          (fun b => b == 32 || b == 9) =
          hd.2 ++ 13 :: 10 :: (renderHeaders t ++ 13 :: 10 :: body) := by
        apply dropWhile_head_false
        intro x
        right
        cases hv2 : hd.2 with
        | nil => simp [hv2]
        | cons a u =>
          have h32 : a ≠ 32 := by rw [hv2] at hv32; simpa using hv32
          have h9 : a ≠ 9 := by rw [hv2] at hv9; simpa using hv9
          simp [hv2, h32, h9]
      have hspan2 := takeWhile_append_stop isValueByte hd.2 13
        (10 :: (renderHeaders t ++ 13 :: 10 :: body))
        (fun x hx => by simpa using (List.all_eq_true.mp hv) x hx) (by decide)
      dsimp only
      rw [if_neg (by simpa [List.length_eq_zero] using hn0)]
      rw [List.dropWhile_cons_of_pos (by decide)]
      rw [hws, hspan2.2]
      dsimp only
      rw [hspan2.1]
      rw [ih fuel body (((hd.1, hd.2)) :: acc)
        (fun p hp => hwf p (by simp [hp]))
        (by simpa using Nat.le_of_succ_le_succ (by simpa using hfuel))]
      simp

theorem insertHeader_not_mem (acc : List (List Nat × List Nat)) (name value : List Nat)
    (h : ∀ q ∈ acc, q.1 ≠ name) :
    insertHeader acc name value = acc ++ [(name, value)] := by
  rw [insertHeader, if_neg]
  intro hany
  obtain ⟨q, hq, hbeq⟩ := List.any_eq_true.mp hany
  exact h q hq (by simpa using hbeq)

theorem foldl_insertHeader_eq (hdrs : List (List Nat × List Nat)) :
    ∀ acc : List (List Nat × List Nat),
      (hdrs.map Prod.fst).Nodup →
      (∀ p ∈ hdrs, lowerName p.1 = p.1) →
      (∀ p ∈ hdrs, ∀ q ∈ acc, q.1 ≠ p.1) →
      hdrs.foldl (fun m p => insertHeader m (lowerName p.1) p.2) acc = acc ++ hdrs := by
  induction hdrs with
  | nil => intro acc _ _ _; simp
  | cons hd t ih =>
    intro acc hnodup hlower hdisj
    simp only [List.foldl_cons]
    rw [hlower hd (by simp),
      insertHeader_not_mem acc hd.1 hd.2 (fun q hq => hdisj hd (by simp) q hq)]
    rw [ih (acc ++ [(hd.1, hd.2)]) (by simpa using (List.nodup_cons.mp (by simpa using hnodup)).2)
      (fun p hp => hlower p (by simp [hp])) ?_]
    · simp
    · intro p hp q hq
      rcases List.mem_append.mp hq with hq | hq
      · exact hdisj p (by simp [hp]) q hq
      · simp at hq
        intro heq
        have hne : hd.1 ∉ t.map Prod.fst := (List.nodup_cons.mp (by simpa using hnodup)).1
        rw [hq] at heq
        exact hne (by rw [heq]; exact List.mem_map_of_mem Prod.fst hp)

instance : DecidablePred WFHeaderPair := fun p => by
  unfold WFHeaderPair
  infer_instance

theorem ofTarget_no_query (s : List Nat) (h : (63 : Nat) ∉ s) :
    Uri.ofTarget s = ⟨s, none⟩ := by
  have hall : ∀ x ∈ s, (x != 63) = true := by
    intro x hx
    simp only [bne_iff_ne, ne_eq]
    intro he
    exact h (he ▸ hx)
  have hdrop : s.dropWhile (fun b => b != 63) = [] := List.dropWhile_eq_nil_iff.mpr hall
  have htake : s.takeWhile (fun b => b != 63) = s := List.takeWhile_eq_self_iff.mpr hall
  simp only [Uri.ofTarget, hdrop, htake]

theorem HttpRequest_parse_render (method target : List Nat)
    (hdrs : List (List Nat × List Nat)) (body : List Nat)
    (hm0 : method ≠ []) (hm : method.all isTokenByte = true)
    (ht0 : target ≠ []) (ht : target.all isUriByte = true)
    (hh : ∀ p ∈ hdrs, WFHeaderPair p)
    (hcount : hdrs.length ≤ 64) :
    HttpRequest.parse
        (method ++ 32 ::
          (target ++ 32 :: 72 :: 84 :: 84 :: 80 :: 47 :: 49 :: 46 :: 49 :: 13 :: 10 ::
            (renderHeaders hdrs ++ 13 :: 10 :: body))) =
      .ok { method := method, uri := Uri.ofTarget target,
            headers := hdrs.foldl (fun m p => insertHeader m (lowerName p.1) p.2) [],
            body := body,
            raw_bytes := method ++ 32 ::
              (target ++ 32 :: 72 :: 84 :: 84 :: 80 :: 47 :: 49 :: 46 :: 49 :: 13 :: 10 ::
                (renderHeaders hdrs ++ 13 :: 10 :: body)) } := by
  simp only [HttpRequest.parse]
  rw [parseRequestLine_render method target (renderHeaders hdrs ++ 13 :: 10 :: body)
    hm0 hm ht0 ht]
  dsimp only
  rw [parseHeaderLines_render hdrs (renderHeaders hdrs ++ 13 :: 10 :: body).length body [] hh
    (by have := renderHeaders_length_ge hdrs; simp [List.length_append]; omega)]
  dsimp only
  rw [if_neg (by simpa using hcount)]
  simp

theorem parseStatusLine_200 (X : List Nat) :
    parseStatusLine (72 :: 84 :: 84 :: 80 :: 47 :: 49 :: 46 :: 49 :: 32 ::
      50 :: 48 :: 48 :: 32 :: 79 :: 75 :: 13 :: 10 :: X) = .ok (200, [79, 75], X) := rfl

theorem HttpResponse_parse_render (hdrs : List (List Nat × List Nat)) (body : List Nat)
    (hh : ∀ p ∈ hdrs, WFHeaderPair p) (hcount : hdrs.length ≤ 64) :
    HttpResponse.parse
        (72 :: 84 :: 84 :: 80 :: 47 :: 49 :: 46 :: 49 :: 32 ::
          50 :: 48 :: 48 :: 32 :: 79 :: 75 :: 13 :: 10 ::
            (renderHeaders hdrs ++ 13 :: 10 :: body)) =
      .ok { status := 200,
            headers := hdrs.foldl (fun m p => insertHeader m (lowerName p.1) p.2) [],
            body := body,
            raw_bytes := 72 :: 84 :: 84 :: 80 :: 47 :: 49 :: 46 :: 49 :: 32 ::
              50 :: 48 :: 48 :: 32 :: 79 :: 75 :: 13 :: 10 ::
                (renderHeaders hdrs ++ 13 :: 10 :: body) } := by
  simp only [HttpResponse.parse]
  rw [parseStatusLine_200]
  dsimp only
  rw [if_neg (by norm_num)]
  rw [parseHeaderLines_render hdrs (renderHeaders hdrs ++ 13 :: 10 :: body).length body [] hh
    (by have := renderHeaders_length_ge hdrs; simp [List.length_append]; omega)]
  dsimp only
  rw [if_neg (by simpa using hcount)]
  simp

end H1

/-- C6, confirmed: for every delivered-chunk sequence whose bytes carry no
`CRLF CRLF` within the first 32 KiB, `HttpRequest::from_stream` fails with
the header-too-large error once the buffered bytes exceed 32768 (when
every read delivers bytes), fails with the connection-closed error when a
read returns zero bytes — or the stream ends — before that, and in no case
returns a parsed message. -/
theorem claim_C6 (chunks : List (List Nat))
    (hterm : H1.hasCRLF2 (chunks.flatten.take 32768) = false) :
    ((∀ c ∈ chunks, c ≠ []) → chunks.flatten.length > 32768 →
      H1.HttpRequest.from_stream chunks = .error .headerTooLarge) ∧
    (chunks.flatten.length ≤ 32768 →
      H1.HttpRequest.from_stream chunks = .error .connectionClosed) ∧
    (∀ r, H1.HttpRequest.from_stream chunks ≠ .ok r) := by
  refine ⟨fun hne hgt => ?_, fun hle => ?_, fun r hok => ?_⟩
  · rw [H1.HttpRequest.from_stream,
      H1.from_stream_loop_too_large chunks [] (by simpa using hterm) hne
        (by simpa using hgt) (by simp [H1.MAX_HEADER_SIZE])]
  · have hterm' : H1.hasCRLF2 ([] ++ chunks.flatten) = false := by
      rw [List.take_of_length_le hle] at hterm
      simpa using hterm
    rw [H1.HttpRequest.from_stream,
      H1.from_stream_loop_closed chunks [] hterm' (by simpa using hle)]
  · rw [H1.HttpRequest.from_stream] at hok
    cases hloop : H1.from_stream_loop chunks [] with
    | error e => rw [hloop] at hok; cases hok
    | ok buffer =>
      obtain ⟨hterm2, hlen2, k, hk, hout⟩ := H1.from_stream_loop_ok chunks [] buffer hloop
      rw [List.nil_append] at hout
      have hpre : buffer ++ (chunks.drop k).flatten = chunks.flatten := by
        rw [hout, ← List.flatten_append, List.take_append_drop]
      have hterm3 : H1.hasCRLF2 (chunks.flatten.take 32768) = true := by
        rw [← hpre, List.take_append_eq_append_take,
          List.take_of_length_le (by simpa [H1.MAX_HEADER_SIZE] using hlen2)]
        exact H1.hasCRLF2_append_left _ _ hterm2
      rw [hterm3] at hterm
      cases hterm

/-- C6 witness: a one-chunk stream `"a"` with no terminator; the stream
ends (the next read returns zero) before any terminator, so `from_stream`
fails with connection-closed and never returns a message. -/
theorem claim_C6_witness :
    ((∀ c ∈ [[(97 : Nat)]], c ≠ []) → [[(97 : Nat)]].flatten.length > 32768 →
      H1.HttpRequest.from_stream [[97]] = .error .headerTooLarge) ∧
    ([[(97 : Nat)]].flatten.length ≤ 32768 →
      H1.HttpRequest.from_stream [[97]] = .error .connectionClosed) ∧
    (∀ r, H1.HttpRequest.from_stream [[97]] ≠ .ok r) :=
  claim_C6 [[97]] (by decide)

/-- C3, claim as stated, refuted: the loop checks the 32-KiB cap BEFORE
checking for the terminator, so a read that completes the terminator while
pushing the buffer past 32768 bytes fails with header-too-large even
though the terminator lies within the first 32 KiB of the delivered
bytes.  Concretely: seven full 4096-byte reads and one 4092-byte read of
`'a'`s (32764 bytes) followed by a 5-byte read `\r\n\r\n a` put the
terminator at bytes 32765..32768 — inside the first 32 KiB — yet
`from_stream` returns the header-too-large error instead of the parsed
message. -/
theorem claim_C3_counterexample :
    (∀ c ∈ [List.replicate 4096 97, List.replicate 4096 97, List.replicate 4096 97,
            List.replicate 4096 97, List.replicate 4096 97, List.replicate 4096 97,
            List.replicate 4096 97, List.replicate 4092 97, [13, 10, 13, 10, 97]],
      c.length ≤ 4096 ∧ c ≠ []) ∧
    H1.hasCRLF2 (([List.replicate 4096 97, List.replicate 4096 97, List.replicate 4096 97,
            List.replicate 4096 97, List.replicate 4096 97, List.replicate 4096 97,
            List.replicate 4096 97, List.replicate 4092 97,
            [13, 10, 13, 10, 97]].flatten).take 32768) = true ∧
    H1.HttpRequest.from_stream
        [List.replicate 4096 97, List.replicate 4096 97, List.replicate 4096 97,
         List.replicate 4096 97, List.replicate 4096 97, List.replicate 4096 97,
         List.replicate 4096 97, List.replicate 4092 97, [13, 10, 13, 10, 97]] =
      .error .headerTooLarge := by
  have hflat : [List.replicate 4096 97, List.replicate 4096 97, List.replicate 4096 97,
      List.replicate 4096 97, List.replicate 4096 97, List.replicate 4096 97,
      List.replicate 4096 97, List.replicate 4092 97,
      [13, 10, 13, 10, 97]].flatten =
      List.replicate 32764 97 ++ [13, 10, 13, 10, 97] := by
    simp only [List.flatten_cons, List.flatten_nil, List.append_nil]
    rw [show (32764 : Nat) = 4096 + (4096 + (4096 + (4096 + (4096 + (4096 + (4096 + 4092))))))
      by norm_num, List.replicate_add, List.replicate_add, List.replicate_add,
      List.replicate_add, List.replicate_add, List.replicate_add, List.replicate_add]
    simp only [List.append_assoc]
  have hloop : H1.from_stream_loop
      [List.replicate 4096 97, List.replicate 4096 97, List.replicate 4096 97,
       List.replicate 4096 97, List.replicate 4096 97, List.replicate 4096 97,
       List.replicate 4096 97, List.replicate 4092 97, [13, 10, 13, 10, 97]] [] =
      .error .headerTooLarge := by
    show H1.from_stream_loop _ (List.replicate 0 97) = _
    rw [H1.loop_step_97 0 4096 _ (by norm_num) (by norm_num),
      show (0 + 4096 : Nat) = 4096 from rfl,
      H1.loop_step_97 4096 4096 _ (by norm_num) (by norm_num),
      show (4096 + 4096 : Nat) = 8192 from rfl,
      H1.loop_step_97 8192 4096 _ (by norm_num) (by norm_num),
      show (8192 + 4096 : Nat) = 12288 from rfl,
      H1.loop_step_97 12288 4096 _ (by norm_num) (by norm_num),
      show (12288 + 4096 : Nat) = 16384 from rfl,
      H1.loop_step_97 16384 4096 _ (by norm_num) (by norm_num),
      show (16384 + 4096 : Nat) = 20480 from rfl,
      H1.loop_step_97 20480 4096 _ (by norm_num) (by norm_num),
      show (20480 + 4096 : Nat) = 24576 from rfl,
      H1.loop_step_97 24576 4096 _ (by norm_num) (by norm_num),
      show (24576 + 4096 : Nat) = 28672 from rfl,
      H1.loop_step_97 28672 4092 _ (by norm_num) (by norm_num),
      show (28672 + 4092 : Nat) = 32764 from rfl]
    rw [H1.from_stream_loop]
    rw [if_neg (show ¬ ([13, 10, 13, 10, 97] : List Nat).length = 0 by simp)]
    simp only [if_pos (show (List.replicate 32764 97 ++ [13, 10, 13, 10, 97]).length >
        H1.MAX_HEADER_SIZE by
      rw [List.length_append, List.length_replicate]
      norm_num [H1.MAX_HEADER_SIZE])]
  refine ⟨?_, ?_, ?_⟩
  · intro c hc
    simp only [List.mem_cons, List.not_mem_nil, or_false] at hc
    rcases hc with rfl | rfl | rfl | rfl | rfl | rfl | rfl | rfl | rfl <;>
      refine ⟨?_, List.ne_nil_of_length_pos ?_⟩ <;>
      simp only [List.length_replicate, List.length_cons, List.length_nil] <;>
      norm_num
  · rw [hflat, List.take_append_eq_append_take,
      List.take_of_length_le (by rw [List.length_replicate]; norm_num),
      show (32768 : Nat) - (List.replicate 32764 97).length = 4 by
        rw [List.length_replicate]]
    exact H1.hasCRLF2_append_right _ _ (by decide)
  · rw [H1.HttpRequest.from_stream, hloop]

/-- C3 amended: for every delivered-chunk sequence (nonempty reads of at
most 4096 bytes each up to the stop) in which the terminator `CRLF CRLF`
first becomes fully buffered after the `k`-th read AND the buffer at that
read is still within the 32-KiB cap, the loop stops exactly there —
including when the terminator straddles a read boundary — returning the
bytes of the first `k` reads, and `from_stream` returns the parse of
exactly those bytes; it never reads past that point. -/
theorem claim_C3 (chunks : List (List Nat)) (k : Nat)
    (hsize : ∀ c ∈ chunks.take k, c.length ≤ 4096)
    (hk : k ≤ chunks.length)
    (hne : ∀ c ∈ chunks.take k, c ≠ [])
    (hterm : H1.hasCRLF2 ((chunks.take k).flatten) = true)
    (hmin : ∀ j < k, H1.hasCRLF2 ((chunks.take j).flatten) = false)
    (hcap : ((chunks.take k).flatten).length ≤ 32768) :
    H1.from_stream_loop chunks [] = .ok ((chunks.take k).flatten) ∧
    H1.HttpRequest.from_stream chunks = H1.HttpRequest.parse ((chunks.take k).flatten) := by
  have h := H1.from_stream_loop_stops k chunks [] hk hne rfl
    (by simpa using hterm) (fun j hj => by simpa using hmin j hj)
    (by simpa [H1.MAX_HEADER_SIZE] using hcap)
  rw [List.nil_append] at h
  exact ⟨h, by rw [H1.HttpRequest.from_stream, h]⟩

/-- C3 witness: the request `GET / HTTP/1.1\r\n\r\n` delivered in two
reads, `…\r` and `\n\r\n`, so the terminator straddles the read boundary;
the loop stops after the second read and the request parses. -/
theorem claim_C3_witness :
    H1.from_stream_loop
        [[71, 69, 84, 32, 47, 32, 72, 84, 84, 80, 47, 49, 46, 49, 13], [10, 13, 10]] [] =
      .ok (([[71, 69, 84, 32, 47, 32, 72, 84, 84, 80, 47, 49, 46, 49, 13],
            [10, 13, 10]].take 2).flatten) ∧
    H1.HttpRequest.from_stream
        [[71, 69, 84, 32, 47, 32, 72, 84, 84, 80, 47, 49, 46, 49, 13], [10, 13, 10]] =
      H1.HttpRequest.parse
        (([[71, 69, 84, 32, 47, 32, 72, 84, 84, 80, 47, 49, 46, 49, 13],
          [10, 13, 10]].take 2).flatten) :=
  claim_C3 [[71, 69, 84, 32, 47, 32, 72, 84, 84, 80, 47, 49, 46, 49, 13], [10, 13, 10]] 2
    (by decide) (by decide) (by decide) (by decide)
    (fun j hj => by interval_cases j <;> decide) (by decide)

/-- C1, the code contradicts the claim (code bug): when the client's method
list does not contain the server's configured method, `evaluate_request`
falls back to `Some(AuthMethod::NoAuth)` unconditionally, so `authenticate`
replies `05 00` and silently proceeds with NoAuth; the `VER(5) | 0xFF` +
unsupported-method failure branch of `authenticate` is unreachable, because
`evaluate_request` never returns `None`.  Concretely, with configured
method UserPass (0x02) and client offer `05 01 00` (only NoAuth), the
handshake succeeds with method 0x00 and writes `05 00`. -/
theorem claim_C1 :
    S5.evaluate_request S5.AuthMethod.userPass ⟨[S5.AuthMethod.noAuth]⟩ =
      some S5.AuthMethod.noAuth ∧
    S5.authenticate S5.AuthMethod.userPass [5, 1, 0] =
      (.ok (S5.AuthMethod.noAuth, []), [5, S5.AuthMethod.noAuth]) ∧
    (∀ (serverMethod : Nat) (req : S5.HandshakeRequest),
      ∃ m, S5.evaluate_request serverMethod req = some m) := by
  refine ⟨rfl, rfl, fun serverMethod req => ?_⟩
  unfold S5.evaluate_request
  cases req.evaluate_method serverMethod <;> simp

/-- C7, confirmed: every version byte other than 5 makes the handshake
request parse fail — byte 4 parses as `Version::V4` but is rejected at the
message boundary with the unsupported-version error, every other byte
fails `Version::try_from` — on both the synchronous and the asynchronous
reader, and `authenticate` then fails without writing anything to the
stream. -/
theorem claim_C7 (v : Nat) (hv : v ≠ 5) (tail : List Nat) (serverMethod : Nat) :
    S5.HandshakeRequest.retrieve_from_stream (v :: tail) =
      .error (if v = 4 then .unsupportedSocksVersion v else .invalidVersion) ∧
    S5.HandshakeRequest.retrieve_from_async_stream (v :: tail) =
      .error (if v = 4 then .unsupportedSocksVersion v else .invalidVersion) ∧
    S5.authenticate serverMethod (v :: tail) =
      (.error (if v = 4 then .unsupportedSocksVersion v else .invalidVersion), []) := by
  by_cases h4 : v = 4 <;>
    simp [S5.HandshakeRequest.retrieve_from_stream,
      S5.HandshakeRequest.retrieve_from_async_stream, S5.authenticate,
      S5.Version.tryFrom, h4, hv]

/-- C7 witness: version byte 4 (a valid `Version` value) is rejected at the
message boundary and nothing is written. -/
theorem claim_C7_witness :
    S5.HandshakeRequest.retrieve_from_stream [4, 1, 0] =
      .error (if 4 = 4 then .unsupportedSocksVersion 4 else .invalidVersion) ∧
    S5.HandshakeRequest.retrieve_from_async_stream [4, 1, 0] =
      .error (if 4 = 4 then .unsupportedSocksVersion 4 else .invalidVersion) ∧
    S5.authenticate 2 [4, 1, 0] =
      (.error (if 4 = 4 then .unsupportedSocksVersion 4 else .invalidVersion), []) :=
  claim_C7 4 (by decide) [1, 0] 2

namespace P2

/-- Errors of `proxy-protocol` (`src/proxy-protocol/src/result.rs`), the
constructors used by `version2.rs`; `ioEof` stands for the `Io` variant
produced when `read_exact` hits the end of the stream. -/
inductive Err where
  | ioEof : Err
  | invalidSignature : Err
  | unsupportedVersion (v : Nat) : Err
  | invalidCommand (c : Nat) : Err
  | invalidAddressFamily (f : Nat) : Err
  | addressLengthMismatch (got expected : Nat) : Err
  | invalidAddressLength (n : Nat) : Err
  deriving DecidableEq, Repr

/-- `Command` (`version2.rs` lines 23-29). -/
inductive Command where
  | localCmd : Command
  | proxy : Command
  deriving DecidableEq, Repr

/-- One `SocketAddr` endpoint: octet list (4 or 16 bytes) plus port. -/
structure SockAddr where
  ip : List Nat
  port : Nat
  deriving DecidableEq, Repr

/-- `ProxyAddresses` (`version2.rs` lines 32-38). -/
structure ProxyAddresses where
  source : SockAddr
  destination : SockAddr
  deriving DecidableEq, Repr

/-- `ProxyHeader` (`version2.rs` lines 62-73). -/
structure ProxyHeader where
  command : Command
  address_family : Nat
  protocol : Nat
  addresses : Option ProxyAddresses
  deriving DecidableEq, Repr

/-- `PROXY_SIGNATURE` (`version2.rs` line 8). -/
def PROXY_SIGNATURE : List Nat :=
  [0x0D, 0x0A, 0x0D, 0x0A, 0x00, 0x0D, 0x0A, 0x51, 0x55, 0x49, 0x54, 0x0A]

/-- `AF_INET` (`version2.rs` line 13). -/
def AF_INET : Nat := 0x10

/-- `AF_INET6` (`version2.rs` line 14). -/
def AF_INET6 : Nat := 0x20

/-- Big-endian 16-bit read of the first two bytes of a buffer. -/
def readU16BE (l : List Nat) : Nat :=
  l.getD 0 0 * 256 + l.getD 1 0

/-- `parse_addresses` (`version2.rs` lines 173-225): for `AF_INET` require
12 bytes and decode `(src_ip[4], dst_ip[4], src_port[2], dst_port[2])`
big-endian, for `AF_INET6` require 36 bytes and decode the 16-byte
variants; `AF_UNIX` and anything else is `InvalidAddressFamily`. -/
def parse_addresses (buf : List Nat) (family : Nat) : Except Err ProxyAddresses :=
  if family = AF_INET then
    if buf.length < 12 then .error (.addressLengthMismatch buf.length 12)
    else
      .ok { source := ⟨buf.take 4, readU16BE (buf.drop 8)⟩,
            destination := ⟨(buf.drop 4).take 4, readU16BE (buf.drop 10)⟩ }
  else if family = AF_INET6 then
    if buf.length < 36 then .error (.addressLengthMismatch buf.length 36)
    else
      .ok { source := ⟨buf.take 16, readU16BE (buf.drop 32)⟩,
            destination := ⟨(buf.drop 16).take 16, readU16BE (buf.drop 34)⟩ }
  else .error (.invalidAddressFamily family)

/-- The command match in `parse_proxy_protocol` (`version2.rs` lines
133-137): `0x00` is LOCAL, `0x01` is PROXY, anything else is
`InvalidCommand`. -/
def commandFromByte (b : Nat) : Except Err Command :=
  if b = 0 then .ok .localCmd
  else if b = 1 then .ok .proxy
  else .error (.invalidCommand b)

/-- `parse_proxy_protocol` (`version2.rs` lines 108-170): peek 16 bytes
(failing with `InvalidSignature` when fewer are available), check the
12-byte signature, split byte 12 into version (high nibble, must be 2) and
command (low nibble), split byte 13 into address family (`& 0xF0`) and
protocol (`& 0x0F`), read the big-endian address length from bytes 14-15,
then consume exactly `16 + addr_len` bytes and decode the addresses from
the bytes past the 16-byte header — but only when the command is PROXY and
`addr_len > 0`. -/
def parse_proxy_protocol (input : List Nat) : Except Err (ProxyHeader × List Nat) :=
  let header_buf := input.take 16
  if input.length < 16 then .error .invalidSignature
  else if header_buf.take 12 ≠ PROXY_SIGNATURE then .error .invalidSignature
  else
    let version_command := header_buf.getD 12 0
    let version := version_command / 16
    let command_byte := version_command % 16
    if version ≠ 2 then .error (.unsupportedVersion version)
    else
      match commandFromByte command_byte with
      | .error e => .error e
      | .ok command =>
        let family_protocol := header_buf.getD 13 0
        let address_family := family_protocol / 16 * 16
        let protocol := family_protocol % 16
        let addr_len := header_buf.getD 14 0 * 256 + header_buf.getD 15 0
        if addr_len > 65535 then .error (.invalidAddressLength addr_len)
        else
          let total_len := 16 + addr_len
          if input.length < total_len then .error .ioEof
          else
            let frame_buf := input.take total_len
            match (if command = Command.proxy ∧ addr_len > 0 then
                     (parse_addresses (frame_buf.drop 16) address_family).map some
                   else .ok none) with
            | .error e => .error e
            | .ok addresses =>
              .ok ({ command := command, address_family := address_family,
                     protocol := protocol, addresses := addresses },
                   input.drop total_len)

theorem take12_sig_append (l : List Nat) :
    (PROXY_SIGNATURE ++ l).take 12 = PROXY_SIGNATURE := by
  rw [show (12 : Nat) = PROXY_SIGNATURE.length from rfl]
  exact List.take_left ..

end P2

/-- C4, claim as stated, refuted: with command PROXY and family INET a
declared `addr_len` of 0 is NOT rejected — the address decode is guarded by
`addr_len > 0`, so the 16-byte header with `addr_len = 0` parses
successfully with no addresses instead of failing with an address-length
error. -/
theorem claim_C4_counterexample :
    P2.parse_proxy_protocol
        [0x0D, 0x0A, 0x0D, 0x0A, 0x00, 0x0D, 0x0A, 0x51, 0x55, 0x49, 0x54, 0x0A,
         0x21, 0x11, 0x00, 0x00] =
      .ok ({ command := .proxy, address_family := P2.AF_INET, protocol := 1,
             addresses := none }, []) := rfl

/-- C4 amended: for the PROXY v2 reader with command PROXY and address
family INET, every header with `1 ≤ addr_len < 12` is rejected with the
address-length error, every header with `addr_len ≥ 12` decodes source and
destination as `(src_ip[4], dst_ip[4], src_port[2], dst_port[2])` in
big-endian order, and the scenario-3 byte sequence yields command PROXY,
source 192.168.1.100:12345 and destination 10.0.0.1:80; a header with
`addr_len = 0`, however, is accepted with no addresses. -/
theorem claim_C4 (fb hi lo : Nat) (payload extra : List Nat)
    (hfb : fb / 16 = 1) (hhi : hi < 256) (hlo : lo < 256)
    (hpay : payload.length = hi * 256 + lo) :
    (1 ≤ hi * 256 + lo → hi * 256 + lo < 12 →
      P2.parse_proxy_protocol
          (P2.PROXY_SIGNATURE ++ 0x21 :: fb :: hi :: lo :: (payload ++ extra)) =
        .error (.addressLengthMismatch (hi * 256 + lo) 12)) ∧
    (12 ≤ hi * 256 + lo →
      P2.parse_proxy_protocol
          (P2.PROXY_SIGNATURE ++ 0x21 :: fb :: hi :: lo :: (payload ++ extra)) =
        .ok ({ command := .proxy, address_family := P2.AF_INET, protocol := fb % 16,
               addresses := some
                 { source := ⟨payload.take 4, P2.readU16BE (payload.drop 8)⟩,
                   destination := ⟨(payload.drop 4).take 4, P2.readU16BE (payload.drop 10)⟩ } },
             extra)) ∧
    P2.parse_proxy_protocol
        [0x0D, 0x0A, 0x0D, 0x0A, 0x00, 0x0D, 0x0A, 0x51, 0x55, 0x49, 0x54, 0x0A,
         0x21, 0x11, 0x00, 0x0C, 0xC0, 0xA8, 0x01, 0x64, 0x0A, 0x00, 0x00, 0x01,
         0x30, 0x39, 0x00, 0x50] =
      .ok ({ command := .proxy, address_family := P2.AF_INET, protocol := 1,
             addresses := some { source := ⟨[192, 168, 1, 100], 12345⟩,
                                 destination := ⟨[10, 0, 0, 1], 80⟩ } }, []) := by
  have heq : P2.PROXY_SIGNATURE ++ 0x21 :: fb :: hi :: lo :: (payload ++ extra) =
      (P2.PROXY_SIGNATURE ++ [0x21, fb, hi, lo]) ++ (payload ++ extra) := by simp
  have h16 : (P2.PROXY_SIGNATURE ++ 0x21 :: fb :: hi :: lo :: (payload ++ extra)).take 16 =
      P2.PROXY_SIGNATURE ++ [0x21, fb, hi, lo] := by
    rw [heq, show (16 : Nat) = (P2.PROXY_SIGNATURE ++ [0x21, fb, hi, lo]).length from rfl,
      List.take_left]
  have hg12 : (P2.PROXY_SIGNATURE ++ [0x21, fb, hi, lo]).getD 12 0 = 0x21 := by
    simp [P2.PROXY_SIGNATURE, List.getD_cons_succ, List.getD_cons_zero]
  have hg13 : (P2.PROXY_SIGNATURE ++ [0x21, fb, hi, lo]).getD 13 0 = fb := by
    simp [P2.PROXY_SIGNATURE, List.getD_cons_succ, List.getD_cons_zero]
  have hg14 : (P2.PROXY_SIGNATURE ++ [0x21, fb, hi, lo]).getD 14 0 = hi := by
    simp [P2.PROXY_SIGNATURE, List.getD_cons_succ, List.getD_cons_zero]
  have hg15 : (P2.PROXY_SIGNATURE ++ [0x21, fb, hi, lo]).getD 15 0 = lo := by
    simp [P2.PROXY_SIGNATURE, List.getD_cons_succ, List.getD_cons_zero]
  have hlen : (P2.PROXY_SIGNATURE ++ 0x21 :: fb :: hi :: lo :: (payload ++ extra)).length =
      16 + (payload.length + extra.length) := by
    simp [P2.PROXY_SIGNATURE]
    omega
  have hframe : ((P2.PROXY_SIGNATURE ++ 0x21 :: fb :: hi :: lo :: (payload ++ extra)).take
      (16 + (hi * 256 + lo))).drop 16 = payload := by
    rw [heq, List.take_append_eq_append_take,
      List.take_of_length_le (l := P2.PROXY_SIGNATURE ++ [0x21, fb, hi, lo])
        (by simp [P2.PROXY_SIGNATURE]),
      show (16 + (hi * 256 + lo)) - (P2.PROXY_SIGNATURE ++ [0x21, fb, hi, lo]).length =
        hi * 256 + lo by simp [P2.PROXY_SIGNATURE],
      List.take_append_eq_append_take, List.take_of_length_le (le_of_eq hpay),
      show hi * 256 + lo - payload.length = 0 by omega, List.take_zero, List.append_nil,
      show (16 : Nat) = (P2.PROXY_SIGNATURE ++ [0x21, fb, hi, lo]).length from rfl,
      List.drop_left]
  have hrest : (P2.PROXY_SIGNATURE ++ 0x21 :: fb :: hi :: lo :: (payload ++ extra)).drop
      (16 + (hi * 256 + lo)) = extra := by
    rw [heq, List.drop_append_eq_append_drop,
      List.drop_of_length_le (l := P2.PROXY_SIGNATURE ++ [0x21, fb, hi, lo])
        (by simp [P2.PROXY_SIGNATURE]),
      show (16 + (hi * 256 + lo)) - (P2.PROXY_SIGNATURE ++ [0x21, fb, hi, lo]).length =
        hi * 256 + lo by simp [P2.PROXY_SIGNATURE],
      List.drop_append_eq_append_drop, List.drop_of_length_le (le_of_eq hpay),
      show hi * 256 + lo - payload.length = 0 by omega, List.drop_zero, List.nil_append,
      List.nil_append]
  refine ⟨fun h1 h2 => ?_, fun h12 => ?_, rfl⟩ <;>
    simp only [P2.parse_proxy_protocol, h16, hg12, hg13, hg14, hg15, hlen,
      P2.take12_sig_append, ne_eq, not_true_eq_false, if_false,
      show (0x21 : Nat) / 16 = 2 by norm_num, show (0x21 : Nat) % 16 = 1 by norm_num,
      show P2.commandFromByte 1 = .ok .proxy from rfl, hframe, hrest,
      show fb / 16 * 16 = P2.AF_INET by rw [hfb]; rfl] <;>
    rw [if_neg (show ¬ (hi * 256 + lo > 65535) by omega),
      if_neg (show ¬ (16 + (payload.length + extra.length) < 16 + (hi * 256 + lo)) by omega),
      if_pos (⟨trivial, by omega⟩ : True ∧ hi * 256 + lo > 0)] <;>
    simp only [P2.parse_addresses, if_pos (rfl : P2.AF_INET = P2.AF_INET), hpay]
  · rw [if_pos (show hi * 256 + lo < 12 by omega)]
    simp [Except.map]
  · rw [if_neg (show ¬ (hi * 256 + lo < 12) by omega)]
    simp [Except.map]

/-- C4 witness: the amended theorem applied at a PROXY INET header with
`addr_len = 12` carrying the scenario-3 addressing bytes. -/
theorem claim_C4_witness :
    P2.parse_proxy_protocol
        (P2.PROXY_SIGNATURE ++ 0x21 :: 0x11 :: 0 :: 12 ::
          ([192, 168, 1, 100, 10, 0, 0, 1, 48, 57, 0, 80] ++ [])) =
      .ok ({ command := .proxy, address_family := P2.AF_INET, protocol := 1,
             addresses := some { source := ⟨[192, 168, 1, 100], 12345⟩,
                                 destination := ⟨[10, 0, 0, 1], 80⟩ } }, []) := by
  have h := (claim_C4 0x11 0 12 [192, 168, 1, 100, 10, 0, 0, 1, 48, 57, 0, 80] []
    (by norm_num) (by norm_num) (by norm_num) (by norm_num)).2.1 (by norm_num)
  simpa [P2.readU16BE, List.getD] using h

/-- C9, confirmed: whenever `parse_proxy_protocol` succeeds it consumes
exactly `16 + addr_len` bytes of the input (with `addr_len` the big-endian
length at bytes 14-15), returning everything after those bytes as the
unread remainder. -/
theorem claim_C9 (input : List Nat) (hdr : P2.ProxyHeader) (rest : List Nat)
    (h : P2.parse_proxy_protocol input = .ok (hdr, rest)) :
    16 + ((input.take 16).getD 14 0 * 256 + (input.take 16).getD 15 0) ≤ input.length ∧
    rest = input.drop
      (16 + ((input.take 16).getD 14 0 * 256 + (input.take 16).getD 15 0)) := by
  simp only [P2.parse_proxy_protocol] at h
  split at h
  · exact absurd h (by simp)
  · split at h
    · exact absurd h (by simp)
    · split at h
      · exact absurd h (by simp)
      · split at h
        · exact absurd h (by simp)
        · split at h
          · exact absurd h (by simp)
          · split at h
            · exact absurd h (by simp)
            · split at h
              · exact absurd h (by simp)
              · rename_i hguard1 hguard2 hcmd hguard3 hguard4 addrs haddr
                refine ⟨by omega, ?_⟩
                injection h with h'
                injection h' with h1 h2
                exact h2.symm

/-- C9 witness: the consumption law applied at the scenario-3 PROXY v2
IPv4 frame, whose declared address length is 12, so exactly 28 of its 28
bytes are consumed. -/
theorem claim_C9_witness :
    16 + 12 ≤ 28 ∧
    ([] : List Nat) =
      [0x0D, 0x0A, 0x0D, 0x0A, 0x00, 0x0D, 0x0A, 0x51, 0x55, 0x49, 0x54, 0x0A,
       0x21, 0x11, 0x00, 0x0C, 0xC0, 0xA8, 0x01, 0x64, 0x0A, 0x00, 0x00, 0x01,
       0x30, 0x39, 0x00, 0x50].drop 28 :=
  claim_C9
    [0x0D, 0x0A, 0x0D, 0x0A, 0x00, 0x0D, 0x0A, 0x51, 0x55, 0x49, 0x54, 0x0A,
     0x21, 0x11, 0x00, 0x0C, 0xC0, 0xA8, 0x01, 0x64, 0x0A, 0x00, 0x00, 0x01,
     0x30, 0x39, 0x00, 0x50]
    ({ command := .proxy, address_family := P2.AF_INET, protocol := 1,
       addresses := some { source := ⟨[192, 168, 1, 100], 12345⟩,
                           destination := ⟨[10, 0, 0, 1], 80⟩ } }) [] rfl

/-- C5, claim as stated, refuted: a SOCKS5 domain address with length byte
0 is NOT rejected by either reader; on the concrete input
`[ATYP=3, LEN=0, PORT=0x0050]` both readers succeed with the empty domain
and port 80 instead of returning an error. -/
theorem claim_C5_counterexample :
    S5.Address.retrieve_from_stream [3, 0, 0, 80] =
      .ok (.domainAddress [] 80, []) ∧
    S5.Address.retrieve_from_async_stream [3, 0, 0, 80] =
      .ok (.domainAddress [] 80, []) :=
  ⟨rfl, rfl⟩

/-- C5 amended: for every SOCKS5 address byte sequence with ATYP = Domain,
a domain whose bytes are not valid UTF-8 is rejected with the
invalid-encoding error by both the synchronous and the asynchronous reader;
a domain length byte of 0, however, is accepted and decodes to the empty
domain (it is not rejected). -/
theorem claim_C5 (name : List Nat) (p1 p2 : Nat) (rest : List Nat)
    (hlen : name.length ≤ 255) (hbad : S5.utf8Valid name = false) :
    S5.Address.retrieve_from_stream (3 :: name.length :: (name ++ p1 :: p2 :: rest)) =
      .error .invalidEncoding ∧
    S5.Address.retrieve_from_async_stream (3 :: name.length :: (name ++ p1 :: p2 :: rest)) =
      .error .invalidEncoding ∧
    S5.Address.retrieve_from_stream (3 :: 0 :: p1 :: p2 :: rest) =
      .ok (.domainAddress [] (p1 * 256 + p2), rest) ∧
    S5.Address.retrieve_from_async_stream (3 :: 0 :: p1 :: p2 :: rest) =
      .ok (.domainAddress [] (p1 * 256 + p2), rest) := by
  have hbad' : S5.utf8ValidFuel name.length name = false := hbad
  refine ⟨?_, ?_, ?_, ?_⟩ <;>
    simp only [S5.Address.retrieve_from_stream, S5.Address.retrieve_from_async_stream,
      S5.AddressType.tryFrom, S5.readExact_one, S5.readExact_append, S5.readExact_two,
      S5.readExact_zero, List.getD_cons_zero, hbad', Bool.false_eq_true, if_false,
      S5.readU16BE, S5.utf8Valid, S5.utf8ValidFuel, List.getD_cons_succ,
      List.length_nil, List.nil_append, if_true]

/-- C5 witness: the amended C5 theorem applied at the concrete one-byte
domain `[0xFF]` (not valid UTF-8) with port bytes `0x00 0x50`. -/
theorem claim_C5_witness :
    S5.Address.retrieve_from_stream [3, 1, 255, 0, 80] = .error .invalidEncoding ∧
    S5.Address.retrieve_from_async_stream [3, 1, 255, 0, 80] = .error .invalidEncoding ∧
    S5.Address.retrieve_from_stream [3, 0, 0, 80] = .ok (.domainAddress [] 80, []) ∧
    S5.Address.retrieve_from_async_stream [3, 0, 0, 80] = .ok (.domainAddress [] 80, []) :=
  claim_C5 [255] 0 80 [] (by decide) (by decide)

section
set_option maxRecDepth 8000

/-- C8, claim as stated, refuted: the encode/decode round trip fails for a
`DomainAddress` whose name is longer than 255 bytes, because
`write_to_buf` emits `addr.len() as u8` (the length mod 256).  For the
256-byte domain of `'a'`s with port 80, both readers decode the encoding to
the empty domain with port 0x6161 instead of the original address. -/
theorem claim_C8_counterexample :
    S5.Address.WF (.domainAddress (List.replicate 256 97) 80) ∧
    S5.Address.retrieve_from_stream
        (S5.Address.write_to_buf (.domainAddress (List.replicate 256 97) 80)) ≠
      .ok (.domainAddress (List.replicate 256 97) 80, []) ∧
    S5.Address.retrieve_from_async_stream
        (S5.Address.write_to_buf (.domainAddress (List.replicate 256 97) 80)) ≠
      .ok (.domainAddress (List.replicate 256 97) 80, []) := by
  refine ⟨⟨fun b hb => by have := List.eq_of_mem_replicate hb; omega,
    S5.utf8Valid_ascii _ (fun b hb => by have := List.eq_of_mem_replicate hb; omega),
    by norm_num⟩, ?_, ?_⟩
  · have e : S5.Address.retrieve_from_stream
        (S5.Address.write_to_buf (.domainAddress (List.replicate 256 97) 80)) =
        .ok (.domainAddress [] 24929, List.replicate 254 97 ++ [0, 80]) := by rfl
    rw [e]
    simp only [ne_eq, Except.ok.injEq, Prod.mk.injEq, S5.Address.domainAddress.injEq]
    rintro ⟨⟨-, h⟩, -⟩
    omega
  · have e : S5.Address.retrieve_from_async_stream
        (S5.Address.write_to_buf (.domainAddress (List.replicate 256 97) 80)) =
        .ok (.domainAddress [] 24929, List.replicate 254 97 ++ [0, 80]) := by rfl
    rw [e]
    simp only [ne_eq, Except.ok.injEq, Prod.mk.injEq, S5.Address.domainAddress.injEq]
    rintro ⟨⟨-, h⟩, -⟩
    omega

end

/-- C8 amended: for every `Address` value `A` the Rust types can hold
(well-formed octets, `u16` port, UTF-8 domain) whose domain name — if any —
is at most 255 bytes long, decoding the bytes produced by encoding `A`
returns exactly `A` and consumes the whole encoding, on both the
synchronous and the asynchronous reader. -/
theorem claim_C8 (a : S5.Address) (hwf : a.WF) (hlen : a.domainLenOK) :
    S5.Address.retrieve_from_stream a.write_to_buf = .ok (a, []) ∧
    S5.Address.retrieve_from_async_stream a.write_to_buf = .ok (a, []) := by
  cases a with
  | socketV4 ip port =>
    obtain ⟨hip, -, hport⟩ := hwf
    constructor
    · simp only [S5.Address.write_to_buf, S5.Address.retrieve_from_stream,
        S5.AddressType.toByte, S5.AddressType.tryFrom]
      rw [show (6 : Nat) = (ip ++ S5.putU16 port).length by simp [S5.putU16, hip]]
      rw [S5.readExact_all]
      simp only [show List.take 4 (ip ++ S5.putU16 port) = ip by rw [← hip, List.take_left],
        show List.drop 4 (ip ++ S5.putU16 port) = S5.putU16 port by rw [← hip, List.drop_left],
        S5.readU16BE_putU16 port hport]
    · simp only [S5.Address.write_to_buf, S5.Address.retrieve_from_async_stream,
        S5.AddressType.toByte, S5.AddressType.tryFrom]
      rw [S5.readExact_len_eq 4 ip (S5.putU16 port) hip]
      simp only [S5.readExact_exact 2 (S5.putU16 port) (by simp [S5.putU16]),
        S5.readU16BE_putU16 port hport]
  | socketV6 ip port =>
    obtain ⟨hip, -, hport⟩ := hwf
    constructor
    · simp only [S5.Address.write_to_buf, S5.Address.retrieve_from_stream,
        S5.AddressType.toByte, S5.AddressType.tryFrom]
      rw [show (18 : Nat) = (ip ++ S5.putU16 port).length by simp [S5.putU16, hip]]
      rw [S5.readExact_all]
      simp only [show List.take 16 (ip ++ S5.putU16 port) = ip by rw [← hip, List.take_left],
        show List.drop 16 (ip ++ S5.putU16 port) = S5.putU16 port by rw [← hip, List.drop_left],
        S5.readU16BE_putU16 port hport]
    · simp only [S5.Address.write_to_buf, S5.Address.retrieve_from_async_stream,
        S5.AddressType.toByte, S5.AddressType.tryFrom]
      rw [S5.readExact_len_eq 16 ip (S5.putU16 port) hip]
      simp only [S5.readExact_exact 2 (S5.putU16 port) (by simp [S5.putU16]),
        S5.readU16BE_putU16 port hport]
  | domainAddress name port =>
    obtain ⟨-, hutf, hport⟩ := hwf
    have hmod : name.length % 256 = name.length :=
      Nat.mod_eq_of_lt (by simpa [Nat.lt_succ_iff] using hlen)
    constructor <;>
    · simp only [S5.Address.write_to_buf, S5.Address.retrieve_from_stream,
        S5.Address.retrieve_from_async_stream, S5.AddressType.toByte, S5.AddressType.tryFrom,
        hmod, S5.readExact_one, List.getD_cons_zero, S5.readExact_append,
        S5.readExact_exact 2 (S5.putU16 port) (by simp [S5.putU16]), hutf, if_true,
        S5.readU16BE_putU16 port hport]

/-- C8 witness: the amended round-trip theorem applied at the one-byte
domain address `"a":80`. -/
theorem claim_C8_witness :
    S5.Address.retrieve_from_stream
        (S5.Address.write_to_buf (.domainAddress [97] 80)) = .ok (.domainAddress [97] 80, []) ∧
    S5.Address.retrieve_from_async_stream
        (S5.Address.write_to_buf (.domainAddress [97] 80)) = .ok (.domainAddress [97] 80, []) :=
  claim_C8 (.domainAddress [97] 80) (by refine ⟨by decide, by decide, by decide⟩)
    (by simp [S5.Address.domainLenOK])

/-- C2 counterexample: the round trip is NOT the identity on the URI.  The
builder completed with method GET and URI `/api?x=1` keeps the query in its
parsed-field view, but `finish` writes only `uri.path()` into the raw
bytes (`request.rs` line 183), so parsing the raw-bytes view yields the
URI `/api` with no query — a request differing from the built one. -/
theorem claim_C2_counterexample :
    ((H1.HttpRequestBuilder.new.withMethod [71, 69, 84]).withUri
        ⟨[47, 97, 112, 105], some [120, 61, 49]⟩).build.finish.uri =
      ⟨[47, 97, 112, 105], some [120, 61, 49]⟩ ∧
    H1.HttpRequest.parse
        (((H1.HttpRequestBuilder.new.withMethod [71, 69, 84]).withUri
            ⟨[47, 97, 112, 105], some [120, 61, 49]⟩).build.finish.raw_bytes) =
      .ok { method := [71, 69, 84], uri := ⟨[47, 97, 112, 105], none⟩, headers := [],
            body := [],
            raw_bytes := [71, 69, 84, 32, 47, 97, 112, 105, 32, 72, 84, 84,
              80, 47, 49, 46, 49, 13, 10, 13, 10] } ∧
    (⟨[47, 97, 112, 105], none⟩ : H1.Uri) ≠ ⟨[47, 97, 112, 105], some [120, 61, 49]⟩ := by
  refine ⟨rfl, by rfl, by simp⟩

/-- C2, amended: for every builder whose (defaulted) method is a nonempty
token, whose (defaulted) URI has a nonempty path of URI bytes, carries no
query and no `?` in the path, and whose header map holds at most 64
well-formed lowercased entries with distinct names, parsing the raw-bytes
view of the finished request yields exactly the finished request — equal on
method, URI, headers, body AND the raw-bytes view — and the raw bytes are
exactly the request line, each header as `NAME ": " VALUE CRLF`, the CRLF
terminator, then the body.  (When the URI carries a query the round trip
fails, see the counterexample: `finish` writes only `uri.path()`.) -/
theorem claim_C2 (b : H1.HttpRequestBuilder)
    (hm0 : b.method.getD [71, 69, 84] ≠ [])
    (hm : (b.method.getD [71, 69, 84]).all H1.isTokenByte = true)
    (hu0 : (b.uri.getD ⟨[47], none⟩).path ≠ [])
    (hu : (b.uri.getD ⟨[47], none⟩).path.all H1.isUriByte = true)
    (huq : (b.uri.getD ⟨[47], none⟩).query = none)
    (hup : (63 : Nat) ∉ (b.uri.getD ⟨[47], none⟩).path)
    (hh : ∀ p ∈ b.headers, H1.WFHeaderPair p)
    (hhl : ∀ p ∈ b.headers, H1.lowerName p.1 = p.1)
    (hhn : (b.headers.map Prod.fst).Nodup)
    (hcount : b.headers.length ≤ 64) :
    H1.HttpRequest.parse b.build.finish.raw_bytes = .ok b.build.finish ∧
    b.build.finish.raw_bytes =
      b.build.finish.method ++ [32] ++ b.build.finish.uri.path ++
        [32, 72, 84, 84, 80, 47, 49, 46, 49, 13, 10] ++
        H1.renderHeaders b.build.finish.headers ++ [13, 10] ++ b.build.finish.body := by
  have hraw : b.build.finish.raw_bytes =
      (b.method.getD [71, 69, 84]) ++ 32 ::
        ((b.uri.getD ⟨[47], none⟩).path ++
          32 :: 72 :: 84 :: 84 :: 80 :: 47 :: 49 :: 46 :: 49 :: 13 :: 10 ::
            (H1.renderHeaders b.headers ++ 13 :: 10 :: b.body)) := by
    simp [H1.HttpRequestBuilder.build, H1.HttpRequestBuilder.finish]
  have huri : (⟨(b.uri.getD ⟨[47], none⟩).path, none⟩ : H1.Uri) = b.uri.getD ⟨[47], none⟩ := by
    cases hcase : b.uri.getD ⟨[47], none⟩ with
    | mk p q =>
      have hq : q = none := by rw [hcase] at huq; exact huq
      rw [hq]
  constructor
  · rw [hraw, H1.HttpRequest_parse_render _ _ _ _ hm0 hm hu0 hu hh hcount]
    rw [H1.ofTarget_no_query _ hup]
    rw [H1.foldl_insertHeader_eq b.headers [] hhn hhl (by simp)]
    rw [huri]
    simp [H1.HttpRequestBuilder.build, H1.HttpRequestBuilder.finish]
  · rfl

/-- C2 witness: the amended round-trip theorem applied at the builder for
`POST /api` with header `host: a` and body `{}`. -/
theorem claim_C2_witness :
    H1.HttpRequest.parse
        ((((H1.HttpRequestBuilder.new.withMethod [80, 79, 83, 84]).withUri
            ⟨[47, 97, 112, 105], none⟩).withHeader [104, 111, 115, 116] [97]).withBody
            [123, 125]).build.finish.raw_bytes =
      .ok (((((H1.HttpRequestBuilder.new.withMethod [80, 79, 83, 84]).withUri
            ⟨[47, 97, 112, 105], none⟩).withHeader [104, 111, 115, 116] [97]).withBody
            [123, 125]).build.finish) ∧
    (((((H1.HttpRequestBuilder.new.withMethod [80, 79, 83, 84]).withUri
        ⟨[47, 97, 112, 105], none⟩).withHeader [104, 111, 115, 116] [97]).withBody
        [123, 125]).build.finish.raw_bytes =
      ((((H1.HttpRequestBuilder.new.withMethod [80, 79, 83, 84]).withUri
          ⟨[47, 97, 112, 105], none⟩).withHeader [104, 111, 115, 116] [97]).withBody
          [123, 125]).build.finish.method ++ [32] ++
        ((((H1.HttpRequestBuilder.new.withMethod [80, 79, 83, 84]).withUri
            ⟨[47, 97, 112, 105], none⟩).withHeader [104, 111, 115, 116] [97]).withBody
            [123, 125]).build.finish.uri.path ++
        [32, 72, 84, 84, 80, 47, 49, 46, 49, 13, 10] ++
        H1.renderHeaders
          ((((H1.HttpRequestBuilder.new.withMethod [80, 79, 83, 84]).withUri
              ⟨[47, 97, 112, 105], none⟩).withHeader [104, 111, 115, 116] [97]).withBody
              [123, 125]).build.finish.headers ++ [13, 10] ++
        ((((H1.HttpRequestBuilder.new.withMethod [80, 79, 83, 84]).withUri
            ⟨[47, 97, 112, 105], none⟩).withHeader [104, 111, 115, 116] [97]).withBody
            [123, 125]).build.finish.body) :=
  claim_C2
    ((((H1.HttpRequestBuilder.new.withMethod [80, 79, 83, 84]).withUri
        ⟨[47, 97, 112, 105], none⟩).withHeader [104, 111, 115, 116] [97]).withBody [123, 125])
    (by decide) (by decide) (by decide) (by decide) (by decide) (by decide)
    (by decide) (by decide) (by decide) (by decide)

/-- C10, confirmed: when a request or response carries two headers whose
names agree case-insensitively, `parse` keeps only the LAST occurrence in
the parsed header map — `headerLookup` (the `header()` accessor) returns
the last value under either spelling of the name, the earlier value is
gone — while the raw-bytes view still contains both occurrences verbatim.
Shown for `GET / HTTP/1.1` and for `HTTP/1.1 200 OK` followed by the two
headers `(n1, v1)` and `(n2, v2)` with `lowerName n1 = lowerName n2`. -/
theorem claim_C10 (n1 v1 n2 v2 body : List Nat)
    (h1 : H1.WFHeaderPair (n1, v1)) (h2 : H1.WFHeaderPair (n2, v2))
    (hsame : H1.lowerName n1 = H1.lowerName n2) :
    H1.HttpRequest.parse
        ([71, 69, 84, 32, 47, 32, 72, 84, 84, 80, 47, 49, 46, 49, 13, 10] ++
          H1.renderHeaders [(n1, v1), (n2, v2)] ++ [13, 10] ++ body) =
      .ok { method := [71, 69, 84], uri := ⟨[47], none⟩,
            headers := [(H1.lowerName n2, v2)], body := body,
            raw_bytes := [71, 69, 84, 32, 47, 32, 72, 84, 84, 80, 47, 49, 46, 49, 13, 10] ++
              H1.renderHeaders [(n1, v1), (n2, v2)] ++ [13, 10] ++ body } ∧
    H1.headerLookup [(H1.lowerName n2, v2)] n1 = some v2 ∧
    H1.headerLookup [(H1.lowerName n2, v2)] n2 = some v2 ∧
    H1.HttpResponse.parse
        ([72, 84, 84, 80, 47, 49, 46, 49, 32, 50, 48, 48, 32, 79, 75, 13, 10] ++
          H1.renderHeaders [(n1, v1), (n2, v2)] ++ [13, 10] ++ body) =
      .ok { status := 200, headers := [(H1.lowerName n2, v2)], body := body,
            raw_bytes := [72, 84, 84, 80, 47, 49, 46, 49, 32, 50, 48, 48, 32, 79, 75, 13, 10] ++
              H1.renderHeaders [(n1, v1), (n2, v2)] ++ [13, 10] ++ body } := by
  have hh : ∀ p ∈ [(n1, v1), (n2, v2)], H1.WFHeaderPair p := by
    intro p hp
    rcases List.mem_cons.mp hp with rfl | hp2
    · exact h1
    · rcases List.mem_cons.mp hp2 with rfl | hp3
      · exact h2
      · exact absurd hp3 (List.not_mem_nil p)
  have hfold : [(n1, v1), (n2, v2)].foldl
      (fun m p => H1.insertHeader m (H1.lowerName p.1) p.2) [] = [(H1.lowerName n2, v2)] := by
    simp only [List.foldl_cons, List.foldl_nil]
    have e1 : H1.insertHeader [] (H1.lowerName n1) v1 = [(H1.lowerName n1, v1)] := by
      rw [H1.insertHeader, if_neg (by simp), List.nil_append]
    rw [e1, H1.insertHeader, if_pos (by simp [hsame])]
    simp [hsame]
  refine ⟨?_, ?_, ?_, ?_⟩
  · have hshape :
        [71, 69, 84, 32, 47, 32, 72, 84, 84, 80, 47, 49, 46, 49, 13, 10] ++
            H1.renderHeaders [(n1, v1), (n2, v2)] ++ [13, 10] ++ body =
          [71, 69, 84] ++ 32 ::
            ([47] ++ 32 :: 72 :: 84 :: 84 :: 80 :: 47 :: 49 :: 46 :: 49 :: 13 :: 10 ::
              (H1.renderHeaders [(n1, v1), (n2, v2)] ++ 13 :: 10 :: body)) := by
      simp
    rw [hshape, H1.HttpRequest_parse_render [71, 69, 84] [47] [(n1, v1), (n2, v2)] body
      (by decide) (by decide) (by decide) (by decide) hh (by simp)]
    rw [hfold]
    rw [show H1.Uri.ofTarget [47] = ⟨[47], none⟩ from rfl]
  · simp [H1.headerLookup, List.find?, hsame]
  · simp [H1.headerLookup, List.find?]
  · have hshape :
        [72, 84, 84, 80, 47, 49, 46, 49, 32, 50, 48, 48, 32, 79, 75, 13, 10] ++
            H1.renderHeaders [(n1, v1), (n2, v2)] ++ [13, 10] ++ body =
          72 :: 84 :: 84 :: 80 :: 47 :: 49 :: 46 :: 49 :: 32 ::
            50 :: 48 :: 48 :: 32 :: 79 :: 75 :: 13 :: 10 ::
              (H1.renderHeaders [(n1, v1), (n2, v2)] ++ 13 :: 10 :: body) := by
      simp
    rw [hshape, H1.HttpResponse_parse_render [(n1, v1), (n2, v2)] body hh (by simp)]
    rw [hfold]

/-- C10 witness: the duplicate-header theorem applied at names `X` and `x`
(case-insensitively equal) with values `a` and `b` and body `z`. -/
theorem claim_C10_witness :
    (H1.HttpRequest.parse
        ([71, 69, 84, 32, 47, 32, 72, 84, 84, 80, 47, 49, 46, 49, 13, 10] ++
          H1.renderHeaders [([88], [97]), ([120], [98])] ++ [13, 10] ++ [122]) =
      .ok { method := [71, 69, 84], uri := ⟨[47], none⟩,
            headers := [(H1.lowerName [120], [98])], body := [122],
            raw_bytes := [71, 69, 84, 32, 47, 32, 72, 84, 84, 80, 47, 49, 46, 49, 13, 10] ++
              H1.renderHeaders [([88], [97]), ([120], [98])] ++ [13, 10] ++ [122] }) ∧
    H1.headerLookup [(H1.lowerName [120], [98])] [88] = some [98] ∧
    H1.headerLookup [(H1.lowerName [120], [98])] [120] = some [98] ∧
    H1.HttpResponse.parse
        ([72, 84, 84, 80, 47, 49, 46, 49, 32, 50, 48, 48, 32, 79, 75, 13, 10] ++
          H1.renderHeaders [([88], [97]), ([120], [98])] ++ [13, 10] ++ [122]) =
      .ok { status := 200, headers := [(H1.lowerName [120], [98])], body := [122],
            raw_bytes := [72, 84, 84, 80, 47, 49, 46, 49, 32, 50, 48, 48, 32, 79, 75, 13, 10] ++
              H1.renderHeaders [([88], [97]), ([120], [98])] ++ [13, 10] ++ [122] } :=
  claim_C10 [88] [97] [120] [98] [122] (by decide) (by decide) (by decide)
